import Mathlib

/-! The x11hotplug input-hotplug backend, `config/x11hotplug.c`.

A shallow embedding of `src/config/x11hotplug.c`.

* Bytes are natural numbers; a C string is the list of its bytes without the
  terminating NUL.
* The static `buf[1024]` is addressed by its offset relative to `buf`.  Memory
  is a total map from offsets to bytes, so an access just outside the array
  (offset `-1`, offset `1024` and above) reads or writes the neighbouring
  bytes of static storage.  Every store the handler makes is recorded, with
  its offset, in `writes`, so that bounds properties are statements about the
  recorded offsets.
* A pointer that does not point into `buf` at all (`NULL`, `NULL + 1`) cannot
  be read or written: using one is a `Fault`.
* The collaborators (`recvfrom`, `asprintf`, `NewInputDeviceRequest`,
  `sendto`) are given by an environment `Env`; the calls the handler makes are
  recorded in order in a trace of `Call`s.
* The socket lifecycle (`x11hotplug_block_handler`, `config_x11hotplug_init`,
  `config_x11hotplug_fini`) is a transition on the socket state `Host`, with
  its calls recorded as `HostCall`s.
-/

namespace X11Hotplug

/-! ## Bytes, strings and constants -/

/-- Bytes of a string literal, without terminator. -/
def cstr (s : String) : List Nat := s.toList.map Char.toNat

/-- The backend name, `#define BACKENDSTR "x11hotplug"`. -/
def BACKENDSTR : List Nat := cstr "x11hotplug"

/-- The log line start, `#define LOGPREFIX "config/" BACKENDSTR ": "`. -/
def LOGPREFIX : List Nat := cstr "config/" ++ BACKENDSTR ++ cstr ": "

/-- The socket name start, `#define SOCKPREFIX "@x11hotplug:"`. -/
def SOCKPREFIX : List Nat := cstr "@x11hotplug:"

/-- Capacity of the request buffer, `static char buf[1024]`. -/
def BUFSIZE : Nat := 1024

/-- The byte `'\n'`. -/
def NL : Nat := 10

/-- The byte `'='`. -/
def EQ : Nat := 61

/-! ## Memory around `buf` -/

/-- Contents of static storage, by offset relative to `buf`. -/
abbrev Mem := Int → Nat

/-- The assignment `buf[i] = b`. -/
def store (m : Mem) (i : Int) (b : Nat) : Mem := fun j => if j = i then b else m j

/-- A `char *` value held by the handler: `buf + off`, or `NULL + off`. -/
inductive Ptr where
  | buf (off : Int)
  | null (off : Int)
  deriving DecidableEq, Repr

/-- What stops the handler before it returns. -/
inductive Fault where
  /-- a read ran past the end of `buf` without meeting a terminator -/
  | overread
  /-- `strcmp` was handed a NULL string -/
  | nullDeref
  /-- a store or read through a pointer formed from `NULL` -/
  | badPointer
  /-- the parse loop did not end within the buffer -/
  | nonterminating
  deriving DecidableEq, Repr

/-- Number of bytes of `buf` at and after offset `k`. -/
def room (k : Int) : Nat := ((BUFSIZE : Int) - k).toNat

/-- The call `strchr(buf + i, c)` with `n` bytes of `buf` left: the offset of
the first `c` before the terminator, or NULL. -/
def strchr (m : Mem) (c : Nat) : Nat → Int → Except Fault (Option Int)
  | 0, _ => .error .overread
  | n + 1, i =>
    if m i = c then .ok (some i)
    else if m i = 0 then .ok none
    else strchr m c n (i + 1)

/-- The C string stored at `buf + i`, with `n` bytes of `buf` left. -/
def cstring (m : Mem) : Nat → Int → Except Fault (List Nat)
  | 0, _ => .error .overread
  | n + 1, i =>
    if m i = 0 then .ok []
    else
      match cstring m n (i + 1) with
      | .ok s => .ok (m i :: s)
      | .error e => .error e

/-- The call `strlen(buf + i)`. -/
def strlen (m : Mem) (n : Nat) (i : Int) : Except Fault Nat :=
  match cstring m n i with
  | .ok s => .ok s.length
  | .error e => .error e

/-! ## Device attributes and options -/

/-- The `ATTR_*` capability bits of `input.h`, which the handler ORs into
`attrs.flags`. -/
structure AttrFlags where
  ATTR_KEYBOARD : Nat
  ATTR_POINTER : Nat
  ATTR_JOYSTICK : Nat
  ATTR_TABLET : Nat
  ATTR_TOUCHSCREEN : Nat
  ATTR_TOUCHPAD : Nat

/-- The struct `InputAttributes` as far as the handler fills it; a NULL string
is `none`. -/
structure InputAttributes where
  product : Option (List Nat)
  vendor : Option (List Nat)
  device : Option (List Nat)
  pnp_id : Option (List Nat)
  usb_id : Option (List Nat)
  flags : Nat
  deriving DecidableEq, Repr

/-- One entry of the option list: a key and its value (NULL is `none`). -/
abbrev InputOption := List Nat × Option (List Nat)

/-- Modelled from the spec: `input_option_new` (dix) is not part of this file.
The spec describes the option list as an insertion-ordered sequence of
(key, value) pairs in which duplicates are allowed and all pairs are forwarded
verbatim, so the call appends one pair to the list. -/
def input_option_new (list : List InputOption) (key : List Nat)
    (value : Option (List Nat)) : List InputOption :=
  list ++ [(key, value)]

/-- Modelled from the spec: `xstrdup` (os) is not part of this file.  A copy of
the string; the copy of an absent (NULL) value is absent. -/
def xstrdup (s : Option (List Nat)) : Option (List Nat) := s

/-- The typed results of parsing: the locals `hotplug_action`, `device`,
`attrs` and `options`. -/
structure Fields where
  hotplug_action : Option (List Nat)
  device : Option (List Nat)
  attrs : InputAttributes
  options : List InputOption
  deriving DecidableEq, Repr

/-- The locals at entry: `attrs = { }`, and the option list seeded by
`input_option_new(NULL, "_source", "server/" BACKENDSTR)`. -/
def Fields.init : Fields where
  hotplug_action := none
  device := none
  attrs := ⟨none, none, none, none, none, 0⟩
  options := input_option_new [] (cstr "_source") (some (cstr "server/" ++ BACKENDSTR))

/-- The statement `attrs.flags |= bit`. -/
def Fields.orFlag (f : Fields) (bit : Nat) : Fields :=
  { f with attrs := { f.attrs with flags := f.attrs.flags ||| bit } }

/-- The chain of `strcmp(value, ...)` tests of the `type` branch (lines
103-114); `strcmp` on a NULL value is a fault. -/
def process_type (F : AttrFlags) (value : Option (List Nat)) (f : Fields) :
    Except Fault Fields :=
  match value with
  | none => .error .nullDeref
  | some v =>
    if v = cstr "keyboard" then .ok (f.orFlag F.ATTR_KEYBOARD)
    else if v = cstr "pointer" then .ok (f.orFlag F.ATTR_POINTER)
    else if v = cstr "joystick" then .ok (f.orFlag F.ATTR_JOYSTICK)
    else if v = cstr "tablet" then .ok (f.orFlag F.ATTR_TABLET)
    else if v = cstr "touchscreen" then .ok (f.orFlag F.ATTR_TOUCHSCREEN)
    else if v = cstr "touchpad" then .ok (f.orFlag F.ATTR_TOUCHPAD)
    else .ok f

/-- The `if`/`else if` chain on `key` (lines 100-125), on the strings found at
`key` and `value`. -/
def process_key (F : AttrFlags) (key : List Nat) (value : Option (List Nat))
    (f : Fields) : Except Fault Fields :=
  if key = cstr "action" then .ok { f with hotplug_action := xstrdup value }
  else if key = cstr "type" then process_type F value f
  else if key = cstr "device" then
    .ok { f with attrs := { f.attrs with device := xstrdup value },
                 device := xstrdup (xstrdup value) }
  else if key = cstr "vendor" then
    .ok { f with attrs := { f.attrs with vendor := xstrdup value } }
  else if key = cstr "product" then
    .ok { f with attrs := { f.attrs with product := xstrdup value } }
  else if key = cstr "pnp_id" then
    .ok { f with attrs := { f.attrs with pnp_id := xstrdup value } }
  else if key = cstr "usb_id" then
    .ok { f with attrs := { f.attrs with usb_id := xstrdup value } }
  else .ok f

/-- Processing of one option (lines 100-127): the typed fields, then
`options = input_option_new(options, key, value)`. -/
def process_option (F : AttrFlags) (key : List Nat) (value : Option (List Nat))
    (f : Fields) : Except Fault Fields :=
  match process_key F key value f with
  | .ok g => .ok { g with options := input_option_new g.options key value }
  | .error e => .error e

/-! ## The parse loop -/

/-- State of the parse loop: memory, the stores made so far (offsets relative
to `buf`, oldest first), the pointer `key`, and the typed fields. -/
structure Parse where
  mem : Mem
  writes : List Int
  key : Ptr
  fields : Fields

/-- A store `buf[i] = b` made by the handler, recorded in `writes`. -/
def Parse.poke (s : Parse) (i : Int) (b : Nat) : Parse :=
  { s with mem := store s.mem i b, writes := s.writes ++ [i] }

/-- The string at `value`, when `value` is not NULL. -/
def value_string (m : Mem) (value : Option Int) : Except Fault (Option (List Nat)) :=
  match value with
  | none => .ok none
  | some v =>
    match cstring m (room v) v with
    | .ok s => .ok (some s)
    | .error e => .error e

/-- One pass through the body of the `do ... while (lineend)` loop (lines
86-133) with `key = buf + k`.  The Boolean of the result tells whether the loop
goes round again. -/
def parse_line (F : AttrFlags) (s : Parse) (k : Int) : Except Fault (Parse × Bool) :=
  match strchr s.mem NL (room k) k with
  | .error e => .error e
  | .ok lineend =>
    -- if (lineend) *lineend = 0;
    let s1 := match lineend with
      | some e => s.poke e 0
      | none => s
    match strlen s1.mem (room k) k with
    | .error e => .error e
    | .ok 0 =>
      -- *(--key) = 0; break;
      .ok ({ s1.poke (k - 1) 0 with key := .buf (k - 1) }, false)
    | .ok (_ + 1) =>
      match strchr s1.mem EQ (room k) k with
      | .error e => .error e
      | .ok eq =>
        -- if (value) *value++ = 0;
        let s2 := match eq with
          | some v => s1.poke v 0
          | none => s1
        let value : Option Int := eq.map (· + 1)
        match cstring s2.mem (room k) k, value_string s2.mem value with
        | .error e, _ => .error e
        | _, .error e => .error e
        | .ok keystr, .ok valstr =>
          match process_option F keystr valstr s2.fields with
          | .error e => .error e
          | .ok g =>
            -- if (lineend) *lineend = '\n';
            let s3 := match lineend with
              | some e => s2.poke e NL
              | none => s2
            -- if (value) *(value-1) = '=';
            let s4 := match value with
              | some v => s3.poke (v - 1) EQ
              | none => s3
            -- key = lineend+1;  while (lineend)
            match lineend with
            | some e => .ok ({ s4 with key := .buf (e + 1), fields := g }, true)
            | none => .ok ({ s4 with key := .null 1, fields := g }, false)

/-- The `do ... while (lineend)` loop (lines 85-134), at most `n` passes. -/
def parse_loop (F : AttrFlags) : Nat → Parse → Except Fault Parse
  | 0, _ => .error .nonterminating
  | n + 1, s =>
    match s.key with
    | .null _ => .error .badPointer
    | .buf k =>
      match parse_line F s k with
      | .error e => .error e
      | .ok (s', true) => parse_loop F n s'
      | .ok (s', false) => .ok s'

/-! ## The wakeup handler -/

/-- Strings the handler may release with `safe_xfree`. -/
inductive Var where
  | attrs_device | attrs_usb_id | attrs_pnp_id | attrs_vendor | attrs_product
  | hotplug_action | device
  deriving DecidableEq, Repr

/-- The calls of the handler that leave this file, with their arguments. -/
inductive Call where
  | remove_devices (backend config_info : List Nat)
  | NewInputDeviceRequest (options : List InputOption) (attrs : InputAttributes)
  | ErrorF (msg : List Nat)
  | LogMessage (msg : List Nat)
  | sendto (sock : Int) (payload : List Nat)
  | input_option_free_list (options : List InputOption)
  | xfree (v : Var) (s : List Nat)
  deriving DecidableEq, Repr

/-- What the collaborators answer during one call of the handler. -/
structure Env where
  /-- the `result` argument of the wakeup handler -/
  result : Int
  /-- the value of `FD_ISSET(sock, read_mask)` -/
  ready : Bool
  /-- the datagram `recvfrom` finds; `none` when it fails (returns -1) -/
  dgram : Option (List Nat)
  /-- whether `asprintf` can allocate its result -/
  asprintf_ok : Bool
  /-- the value returned by `NewInputDeviceRequest`; `Success` is 0 -/
  NewInputDeviceRequest : List InputOption → InputAttributes → Int
  /-- the value returned by `sendto` -/
  sendto : Int

/-- The X protocol code `Success`. -/
def Success : Int := 0

/-- The call `recvfrom(sock, buf, sizeof(buf)-1, ...)`: at most 1023 bytes of
the datagram are copied to the start of `buf`; the result is their number, or
-1 on failure. -/
def recvfrom (prior : Mem) (dgram : Option (List Nat)) : Int × Mem :=
  match dgram with
  | none => (-1, prior)
  | some d =>
    let got := d.take (BUFSIZE - 1)
    ((got.length : Int),
      fun j => if 0 ≤ j ∧ j < (got.length : Int) then got.getD j.toNat 0 else prior j)

/-- The bytes `buf[0] .. buf[n-1]` handed to `sendto`. -/
def payload (m : Mem) (n : Int) : List Nat :=
  (List.range n.toNat).map (fun (j : Nat) => m (j : Int))

/-- The stores of `sprintf(buf + k, ...)` writing the bytes `bs` and the
terminator. -/
def Parse.sprintf (s : Parse) (k : Int) : List Nat → Parse
  | [] => s.poke k 0
  | b :: bs => (s.poke k b).sprintf (k + 1) bs

/-- A `safe_xfree(x)`: `xfree` when `x` is not NULL. -/
def safe_xfree (v : Var) (x : Option (List Nat)) : List Call :=
  match x with
  | some s => [Call.xfree v s]
  | none => []

/-- What one call of the handler did. -/
structure Outcome where
  /-- the calls made, in order -/
  trace : List Call
  /-- the fault that stopped the handler, if any -/
  fault : Option Fault
  /-- memory at the end -/
  mem : Mem
  /-- offsets of the stores into `buf`, in order -/
  writes : List Int
  /-- the typed fields at the end of parsing, with the option list as it was at dispatch -/
  fields : Option Fields
  /-- the value of `failure` at `done:`, `none` for NULL; absent when the handler did not get there -/
  failure : Option (Option (List Nat))

/-- Lines 136-164: the checks and the dispatch on `hotplug_action`.  The result
is the option list at `done:`, the value of `failure`, and the calls made. -/
def dispatch (E : Env) (f : Fields) : List InputOption × Option (List Nat) × List Call :=
  match f.device with
  | none => (f.options, some (cstr "no device"), [])
  | some device =>
    if E.asprintf_ok = false then (f.options, some (cstr "asprintf failed"), [])
    else
      let config_info := BACKENDSTR ++ cstr ":" ++ device
      let options := input_option_new f.options (cstr "config_info") (some config_info)
      match f.hotplug_action with
      | none => (options, some (cstr "no action for event"), [])
      | some action =>
        if action = cstr "add" then
          if E.NewInputDeviceRequest options f.attrs ≠ Success then
            (options, some (cstr "NewInputDeviceRequest failed"),
              [Call.remove_devices BACKENDSTR config_info,
               Call.NewInputDeviceRequest options f.attrs,
               Call.ErrorF (LOGPREFIX ++ cstr "NewInputDeviceRequest " ++ device
                 ++ cstr " failed\n")])
          else
            (options, none,
              [Call.remove_devices BACKENDSTR config_info,
               Call.NewInputDeviceRequest options f.attrs,
               Call.LogMessage (LOGPREFIX ++ cstr "New input device " ++ device
                 ++ cstr "\n")])
        else if action = cstr "remove" then
          (options, none, [Call.remove_devices BACKENDSTR config_info])
        else (options, some (cstr "unsupported action"), [])

/-- Lines 171-182: the releases after the reply. -/
def cleanup (f : Fields) (options : List InputOption) (failure : Option (List Nat)) :
    List Call :=
  (match failure with
    | some reason =>
      [Call.ErrorF (LOGPREFIX ++ reason ++ cstr "\n"),
       Call.input_option_free_list options]
      ++ safe_xfree .attrs_device f.attrs.device
      ++ safe_xfree .attrs_usb_id f.attrs.usb_id
      ++ safe_xfree .attrs_pnp_id f.attrs.pnp_id
      ++ safe_xfree .attrs_vendor f.attrs.vendor
      ++ safe_xfree .attrs_product f.attrs.product
    | none => [])
  ++ safe_xfree .hotplug_action f.hotplug_action
  ++ safe_xfree .device f.device

/-- The text `sprintf` formats at `done:`, `"\nresult=%s"` with
`failure ?: "ok"`. -/
def result_line (failure : Option (List Nat)) : List Nat :=
  cstr "\nresult=" ++ failure.getD (cstr "ok")

/-- The function `x11hotplug_wakeup_handler`, called with the static `sock`
and with `prior` as the contents of static storage around `buf`. -/
def x11hotplug_wakeup_handler (F : AttrFlags) (E : Env) (sock : Int) (prior : Mem) :
    Outcome :=
  -- if ((result <= 0) || (sock < 0) || !FD_ISSET(sock, read_mask)) return;
  if E.result ≤ 0 ∨ sock < 0 ∨ E.ready = false then
    ⟨[], none, prior, [], none, none⟩
  else
    let (ret, m0) := recvfrom prior E.dgram
    if ret ≤ 0 then ⟨[], none, m0, [], none, none⟩
    else
      -- buf[ret] = 0;  key = buf;
      let s0 : Parse := (Parse.mk m0 [] (.buf 0) Fields.init).poke ret 0
      match parse_loop F BUFSIZE s0 with
      | .error e => ⟨[], some e, s0.mem, s0.writes, none, none⟩
      | .ok s =>
        let (options, failure, calls) := dispatch E s.fields
        let f := { s.fields with options := options }
        match s.key with
        | .null _ => ⟨calls, some .badPointer, s.mem, s.writes, some f, some failure⟩
        | .buf k =>
          -- key += sprintf(key, "\nresult=%s", failure ?: "ok");
          let line := result_line failure
          let s' := s.sprintf k line
          let sent := Call.sendto sock (payload s'.mem (k + line.length))
          let err := if E.sendto < 0 then [Call.ErrorF (LOGPREFIX ++ cstr "sendto failed\n")]
            else []
          ⟨calls ++ [sent] ++ err ++ cleanup s.fields options failure,
            none, s'.mem, s'.writes, some f, some failure⟩

/-- The bytes of a request made of the given lines: every line followed by a
newline, then the empty line that ends the message. -/
def encode : List (List Nat) → List Nat
  | [] => [NL]
  | l :: ls => l ++ NL :: encode ls

/-! ## The socket: block handler, init and fini -/

/-- The calls of the socket lifecycle that leave this file. -/
inductive HostCall where
  | socket
  | bind (fd : Int) (name : List Nat) (pathlen : Nat)
  | close (fd : Int)
  | ErrorF (msg : List Nat)
  | AddGeneralSocket (fd : Int)
  | RemoveGeneralSocket (fd : Int)
  | RegisterBlockAndWakeupHandlers
  | RemoveBlockAndWakeupHandlers
  deriving DecidableEq, Repr

/-- The macro `FD_SET(fd, set)` on a descriptor set. -/
def FD_SET (fd : Int) (set : Int → Bool) : Int → Bool :=
  fun j => if j = fd then true else set j

/-- The macro `FD_CLR(fd, set)` on a descriptor set. -/
def FD_CLR (fd : Int) (set : Int → Bool) : Int → Bool :=
  fun j => if j = fd then false else set j

/-- Modelled from the spec: `AddGeneralSocket` (os) is not part of this file.
It is the host primitive "Register(handle)": the descriptor joins the set of
sockets the server polls. -/
def AddGeneralSocket (fd : Int) (general : Int → Bool) : Int → Bool := FD_SET fd general

/-- Modelled from the spec: `RemoveGeneralSocket` (os) is not part of this
file.  It is the host primitive "Unregister(handle)": the descriptor leaves
the set of sockets the server polls. -/
def RemoveGeneralSocket (fd : Int) (general : Int → Bool) : Int → Bool := FD_CLR fd general

/-- The socket state: the static `sock`, the server's read mask, the set
`general` of sockets the server polls, whether the block and wakeup handlers
are registered, and the set `opened` of descriptors that are open. -/
structure Host where
  sock : Int
  read_mask : Int → Bool
  general : Int → Bool
  handlers : Bool
  opened : Int → Bool

/-- The state at program start: `static int sock = -1`, nothing registered,
no descriptor of this backend open. -/
def Host.start : Host := ⟨-1, fun _ => false, fun _ => false, false, fun _ => false⟩

/-- The function `x11hotplug_block_handler` (lines 185-198). -/
def x11hotplug_block_handler (h : Host) : Host × List HostCall :=
  if 0 ≤ h.sock ∧ h.read_mask h.sock = false then
    -- AddGeneralSocket(sock); FD_SET(sock, read_mask);
    ({ h with general := AddGeneralSocket h.sock h.general,
              read_mask := FD_SET h.sock h.read_mask },
      [HostCall.AddGeneralSocket h.sock])
  else (h, [])

/-- What the system answers during `config_x11hotplug_init`. -/
structure InitEnv where
  /-- the server's `display` string -/
  display : List Nat
  /-- the value returned by `socket()`: a descriptor, or negative on failure -/
  socket : Int
  /-- the value returned by `bind()` -/
  bind : Int

/-- The socket address of lines 209-213: `SOCKPREFIX` and the display, with a
leading `@` replaced by NUL (abstract namespace). -/
def socket_name (display : List Nat) : List Nat :=
  match SOCKPREFIX ++ display with
  | 64 :: rest => 0 :: rest
  | path => path

/-- The function `config_x11hotplug_init` (lines 200-243): the value returned,
the new state and the calls made. -/
def config_x11hotplug_init (e : InitEnv) (h : Host) : Int × Host × List HostCall :=
  -- sock = socket(AF_UNIX, SOCK_DGRAM, 0);
  let h1 : Host :=
    { h with sock := e.socket,
             opened := if 0 ≤ e.socket then FD_SET e.socket h.opened else h.opened }
  if e.socket < 0 then
    (0, h1, [HostCall.socket, HostCall.ErrorF (LOGPREFIX ++ cstr "failed to create socket\n")])
  else
    let bound := HostCall.bind e.socket (socket_name e.display)
      (SOCKPREFIX ++ e.display).length
    if e.bind < 0 then
      -- fail_bind: close(sock);
      (0, { h1 with opened := FD_CLR e.socket h1.opened },
        [HostCall.socket, bound,
         HostCall.ErrorF (LOGPREFIX ++ cstr "failed to bind socket\n"),
         HostCall.close e.socket])
    else
      (1, { h1 with handlers := true },
        [HostCall.socket, bound, HostCall.RegisterBlockAndWakeupHandlers])

/-- The function `config_x11hotplug_fini` (lines 245-256). -/
def config_x11hotplug_fini (h : Host) : Host × List HostCall :=
  if h.sock < 0 then (h, [])
  else
    ({ h with general := RemoveGeneralSocket h.sock h.general, handlers := false,
              opened := FD_CLR h.sock h.opened, sock := -1 },
      [HostCall.RemoveGeneralSocket h.sock, HostCall.RemoveBlockAndWakeupHandlers,
       HostCall.close h.sock])

/-- One call of the wakeup handler in socket state `h`: the handler reads
`sock` and tests it in the read mask; it assigns neither, so the socket state
after the call is `h`. -/
def wakeup (F : AttrFlags) (E : Env) (h : Host) (prior : Mem) : Host × Outcome :=
  (h, x11hotplug_wakeup_handler F { E with ready := h.read_mask h.sock } h.sock prior)

/-! ## Requests as lines -/

/-- A field line: not empty, and free of NUL and newline bytes. -/
def IsLine (l : List Nat) : Prop := l ≠ [] ∧ 0 ∉ l ∧ NL ∉ l

instance (l : List Nat) : Decidable (IsLine l) := by
  unfold IsLine; infer_instance

/-- The text of a line before its first `=` (the whole line without `=`). -/
def keyOf (l : List Nat) : List Nat := l.takeWhile (fun b => b != EQ)

/-- The text of a line after its first `=`; absent when the line has no `=`. -/
def valueOf (l : List Nat) : Option (List Nat) :=
  if EQ ∈ l then some (l.dropWhile (fun b => b != EQ)).tail else none

/-- The fields after the given lines have been processed in order, each split
at its first `=`. -/
def fold_lines (F : AttrFlags) : List (List Nat) → Fields → Except Fault Fields
  | [], f => .ok f
  | l :: ls, f =>
    match process_option F (keyOf l) (valueOf l) f with
    | .ok g => fold_lines F ls g
    | .error e => .error e

/-- The bytes `bs` are stored from offset `k` on. -/
def seg (m : Mem) : Int → List Nat → Prop
  | _, [] => True
  | k, b :: bs => m k = b ∧ seg m (k + 1) bs

/-- Offsets of the stores made while one line at offset `k` is parsed. -/
def line_writes (k : Int) (l : List Nat) : List Int :=
  if EQ ∈ l then
    [k + l.length, k + (keyOf l).length, k + l.length, k + (keyOf l).length]
  else [k + l.length, k + l.length]

/-- Offsets of the stores made while the lines of a request at offset `k` are
parsed, the two stores at the empty line included. -/
def lines_writes : Int → List (List Nat) → List Int
  | k, [] => [k, k - 1]
  | k, l :: ls => line_writes k l ++ lines_writes (k + l.length + 1) ls

/-- The parse state on reaching `done:` when the datagram `d`, which starts
with a request of the given lines, has been parsed to the fields `g`. -/
def done_state (prior : Mem) (d : List Nat) (lines : List (List Nat)) (g : Fields) :
    Parse :=
  ⟨store (store (store (recvfrom prior (some d)).2 d.length 0)
      ((encode lines).length - 1) 0) ((encode lines).length - 1 - 1) 0,
    [(d.length : Int)] ++ lines_writes 0 lines,
    .buf ((encode lines).length - 1 - 1), g⟩

/-- The outcome of the handler for such a datagram: dispatch, reply written at
the end-of-message position, `sendto`, releases. -/
def request_outcome (E : Env) (sock : Int) (prior : Mem) (d : List Nat)
    (lines : List (List Nat)) (g : Fields) : Outcome :=
  let r := dispatch E g
  let k : Int := (encode lines).length - 1 - 1
  let S := (done_state prior d lines g).sprintf k (result_line r.2.1)
  ⟨r.2.2 ++ [Call.sendto sock (payload S.mem (k + (result_line r.2.1).length))]
      ++ (if E.sendto < 0 then [Call.ErrorF (LOGPREFIX ++ cstr "sendto failed\n")] else [])
      ++ cleanup g r.1 r.2.1,
    none, S.mem, S.writes, some { g with options := r.1 }, some r.2.1⟩

/-- A call into the device registry: `remove_devices` or
`NewInputDeviceRequest`. -/
def Call.isRegistry : Call → Bool
  | .remove_devices _ _ => true
  | .NewInputDeviceRequest _ _ => true
  | _ => false

/-- The registry calls of a trace, in order. -/
def registry_calls (t : List Call) : List Call := t.filter Call.isRegistry

/-- The payloads of the `sendto` calls of a trace, in order. -/
def replies (t : List Call) : List (List Nat) :=
  t.filterMap (fun c => match c with
    | .sendto _ p => some p
    | _ => none)

/-- The option pair a line is forwarded as. -/
def pair (l : List Nat) : InputOption := (keyOf l, valueOf l)

/-- The value of the last line whose key is `key`; absent when there is no
such line, or when that line has no `=`. -/
def lastValue (key : List Nat) (lines : List (List Nat)) : Option (List Nat) :=
  match lines.reverse.find? (fun l => keyOf l = key) with
  | some l => valueOf l
  | none => none

/-- The keys that are stored in a typed string field. -/
inductive TypedKey where
  | action | device | vendor | product | pnp_id | usb_id
  deriving DecidableEq, Repr

/-- The text of a typed key on the wire. -/
def TypedKey.name : TypedKey → List Nat
  | .action => cstr "action"
  | .device => cstr "device"
  | .vendor => cstr "vendor"
  | .product => cstr "product"
  | .pnp_id => cstr "pnp_id"
  | .usb_id => cstr "usb_id"

/-- The typed field a key is stored in. -/
def TypedKey.get : TypedKey → Fields → Option (List Nat)
  | .action, f => f.hotplug_action
  | .device, f => f.attrs.device
  | .vendor, f => f.attrs.vendor
  | .product, f => f.attrs.product
  | .pnp_id, f => f.attrs.pnp_id
  | .usb_id, f => f.attrs.usb_id

/-- The capability bit of a recognized `type` value. -/
def typeTag (F : AttrFlags) (v : List Nat) : Option Nat :=
  if v = cstr "keyboard" then some F.ATTR_KEYBOARD
  else if v = cstr "pointer" then some F.ATTR_POINTER
  else if v = cstr "joystick" then some F.ATTR_JOYSTICK
  else if v = cstr "tablet" then some F.ATTR_TABLET
  else if v = cstr "touchscreen" then some F.ATTR_TOUCHSCREEN
  else if v = cstr "touchpad" then some F.ATTR_TOUCHPAD
  else none

/-- The capability bits of the `type=` lines with a recognized value, in line
order. -/
def tags (F : AttrFlags) (lines : List (List Nat)) : List Nat :=
  lines.filterMap (fun l =>
    if keyOf l = cstr "type" then (valueOf l).bind (typeTag F) else none)

/-- The handler is called for a readable socket and reads a datagram that is
the request made of `lines`: the datagram fits the receive size, every line is
a non-empty text line, and no line is the bare word `type` (a `type` line
always comes with `=`). -/
structure Arrives (E : Env) (sock : Int) (lines : List (List Nat)) : Prop where
  result : 0 < E.result
  sock : 0 ≤ sock
  ready : E.ready = true
  dgram : E.dgram = some (encode lines)
  fits : (encode lines).length < BUFSIZE
  text : ∀ l ∈ lines, IsLine l
  typed : cstr "type" ∉ lines

/-- The `ATTR_*` values of the X server's `input.h`. -/
def xorgFlags : AttrFlags := ⟨1, 2, 4, 8, 32, 16⟩

/-- An environment in which the socket is readable, the datagram `d` is
waiting, and every collaborator succeeds. -/
def envOk (d : List Nat) : Env := ⟨1, true, some d, true, fun _ _ => Success, 0⟩

/-- Static storage that is all zero, as at program start. -/
def zeroMem : Mem := fun _ => 0

/-- The request `action=add`, `device=/dev/input/event3`, `type=keyboard`. -/
def addRequest : List (List Nat) :=
  [cstr "action=add", cstr "device=/dev/input/event3", cstr "type=keyboard"]

/-- The request `device=/dev/input/event3`, `action=remove`. -/
def removeRequest : List (List Nat) :=
  [cstr "device=/dev/input/event3", cstr "action=remove"]

/-- The request `action=bogus`, `device=/dev/input/event3`. -/
def bogusRequest : List (List Nat) :=
  [cstr "action=bogus", cstr "device=/dev/input/event3"]

/-- A request with two `type` lines and an unrecognized one. -/
def typesRequest : List (List Nat) :=
  [cstr "type=keyboard", cstr "type=mouse", cstr "type=pointer"]

/-- A request in which `device` appears twice. -/
def twiceRequest : List (List Nat) :=
  [cstr "device=/dev/a", cstr "action=add", cstr "device=/dev/b"]

/-- The parse state at loop entry after the datagram `d` was received: the
bytes of `d` at the start of `buf`, `buf[ret] = 0`, `key = buf`. -/
def entry_state (prior : Mem) (d : List Nat) : Parse :=
  (Parse.mk (recvfrom prior (some d)).2 [] (.buf 0) Fields.init).poke d.length 0

/-- The states of the parse loop after each pass that goes round again, that
is, after each line that is not empty and ends in a newline. -/
def loop_states (F : AttrFlags) : Nat → Parse → List Parse
  | 0, _ => []
  | n + 1, s =>
    match s.key with
    | .null _ => []
    | .buf k =>
      match parse_line F s k with
      | .ok (s', true) => s' :: loop_states F n s'
      | _ => []

/-- A line of 1021 letters `a`; the request made of it is 1023 bytes long. -/
def longLine : List Nat := List.replicate 1021 97

/-! ## Scanning lemmas -/

theorem seg_append (m : Mem) (k : Int) (a b : List Nat) :
    seg m k (a ++ b) ↔ seg m k a ∧ seg m (k + a.length) b := by
  induction a generalizing k with
  | nil => simp [seg]
  | cons x xs ih =>
    have e : k + 1 + (xs.length : Int) = k + ((xs.length + 1 : Nat) : Int) := by
      push_cast; ring
    show (m k = x ∧ seg m (k + 1) (xs ++ b)) ↔ _
    rw [ih, List.length_cons, ← e]
    simp only [seg, and_assoc]

theorem seg_left (m : Mem) (k : Int) (xs a b : List Nat) (h : seg m k xs)
    (e : xs = a ++ b) : seg m k a := by
  subst e
  exact ((seg_append m k a b).1 h).1

theorem seg_store (m : Mem) (k i : Int) (b : Nat) (bs : List Nat)
    (h : seg m k bs) (hi : i < k ∨ k + bs.length ≤ i) : seg (store m i b) k bs := by
  induction bs generalizing k with
  | nil => trivial
  | cons x xs ih =>
    obtain ⟨h1, h2⟩ := h
    simp only [List.length_cons, Nat.cast_add, Nat.cast_one] at hi
    refine ⟨?_, ih (k + 1) h2 (by omega)⟩
    have : k ≠ i := by omega
    simp [store, this, h1]

theorem seg_unstore (m : Mem) (k i : Int) (b : Nat) (bs : List Nat)
    (h : seg (store m i b) k bs) (hi : i < k ∨ k + bs.length ≤ i) : seg m k bs := by
  induction bs generalizing k with
  | nil => trivial
  | cons x xs ih =>
    obtain ⟨h1, h2⟩ := h
    simp only [List.length_cons, Nat.cast_add, Nat.cast_one] at hi
    refine ⟨?_, ih (k + 1) h2 (by omega)⟩
    have : k ≠ i := by omega
    simpa [store, this] using h1

theorem strchr_found (m : Mem) (c : Nat) (s : List Nat) (n : Nat) (k : Int)
    (h : seg m k (s ++ [c])) (hs : ∀ x ∈ s, x ≠ c ∧ x ≠ 0) (hn : s.length < n) :
    strchr m c n k = .ok (some (k + s.length)) := by
  induction s generalizing k n with
  | nil =>
    obtain ⟨n, rfl⟩ : ∃ n', n = n' + 1 := ⟨n - 1, by simp at hn; omega⟩
    simp [strchr, h.1]
  | cons x xs ih =>
    obtain ⟨n, rfl⟩ : ∃ n', n = n' + 1 := ⟨n - 1, by simp at hn; omega⟩
    obtain ⟨h1, h2⟩ := h
    have hx := hs x (by simp)
    simp only [strchr, h1, hx.1, hx.2, if_false]
    rw [ih n (k + 1) h2 (fun y hy => hs y (by simp [hy])) (by simpa using hn)]
    simp only [List.length_cons, Nat.cast_add, Nat.cast_one]
    congr 2; ring

theorem strchr_none (m : Mem) (c : Nat) (s : List Nat) (n : Nat) (k : Int)
    (h : seg m k (s ++ [0])) (hc : c ≠ 0) (hs : ∀ x ∈ s, x ≠ c ∧ x ≠ 0)
    (hn : s.length < n) : strchr m c n k = .ok none := by
  induction s generalizing k n with
  | nil =>
    obtain ⟨n, rfl⟩ : ∃ n', n = n' + 1 := ⟨n - 1, by simp at hn; omega⟩
    simp [strchr, h.1, Ne.symm hc]
  | cons x xs ih =>
    obtain ⟨n, rfl⟩ : ∃ n', n = n' + 1 := ⟨n - 1, by simp at hn; omega⟩
    obtain ⟨h1, h2⟩ := h
    have hx := hs x (by simp)
    simp only [strchr, h1, hx.1, hx.2, if_false]
    exact ih n (k + 1) h2 (fun y hy => hs y (by simp [hy])) (by simpa using hn)

theorem cstring_seg (m : Mem) (s : List Nat) (n : Nat) (k : Int)
    (h : seg m k (s ++ [0])) (hs : ∀ x ∈ s, x ≠ 0) (hn : s.length < n) :
    cstring m n k = .ok s := by
  induction s generalizing k n with
  | nil =>
    obtain ⟨n, rfl⟩ : ∃ n', n = n' + 1 := ⟨n - 1, by simp at hn; omega⟩
    simp [cstring, h.1]
  | cons x xs ih =>
    obtain ⟨n, rfl⟩ : ∃ n', n = n' + 1 := ⟨n - 1, by simp at hn; omega⟩
    obtain ⟨h1, h2⟩ := h
    have hx := hs x (by simp)
    simp only [cstring, h1, hx, if_false]
    rw [ih n (k + 1) h2 (fun y hy => hs y (by simp [hy])) (by simpa using hn)]

/-! ## Splitting a line at its first `=` -/

theorem keyOf_ne (l : List Nat) : ∀ x ∈ keyOf l, x ≠ EQ := by
  intro x hx
  have := List.mem_takeWhile_imp hx
  simpa using this

theorem keyOf_subset (l : List Nat) : ∀ x ∈ keyOf l, x ∈ l := by
  intro x hx
  exact (List.takeWhile_sublist _).subset hx

theorem split_of_mem (l : List Nat) (h : EQ ∈ l) :
    ∃ v, valueOf l = some v ∧ l = keyOf l ++ EQ :: v := by
  induction l with
  | nil => simp at h
  | cons x xs ih =>
    by_cases hx : x = EQ
    · subst hx
      exact ⟨xs, by simp [valueOf, List.dropWhile], by simp [keyOf, List.takeWhile]⟩
    · have hxs : EQ ∈ xs := by
        rcases List.mem_cons.1 h with h | h
        · exact absurd h.symm hx
        · exact h
      obtain ⟨v, hv, hl⟩ := ih hxs
      have hb : (x != EQ) = true := by simpa using hx
      refine ⟨v, ?_, ?_⟩
      · simp only [valueOf, h, hxs, if_true] at hv ⊢
        rw [List.dropWhile_cons, hb]
        exact hv
      · simp only [keyOf] at hl ⊢
        rw [List.takeWhile_cons, hb]
        simp only [if_true, List.cons_append]
        rw [← hl]

theorem split_of_not_mem (l : List Nat) (h : EQ ∉ l) :
    valueOf l = none ∧ keyOf l = l := by
  refine ⟨by simp [valueOf, h], ?_⟩
  unfold keyOf
  rw [List.takeWhile_eq_self_iff]
  intro x hx
  have : x ≠ EQ := fun e => h (e ▸ hx)
  simpa using this

/-! ## One pass of the parse loop over a field line -/

theorem room_gt (k : Int) (n : Nat) (h : k + n < BUFSIZE) : n < room k := by
  unfold room; omega

theorem restore_one (m : Mem) (e : Int) (h : m e = NL) :
    store (store m e 0) e NL = m := by
  funext j
  by_cases hj : j = e
  · simp [store, hj, h]
  · simp [store, hj]

theorem restore_two (m : Mem) (e v : Int) (h : m e = NL) (hv : m v = EQ) (hne : v ≠ e) :
    store (store (store (store m e 0) v 0) e NL) (v + 1 - 1) EQ = m := by
  funext j
  have e1 : v + 1 - 1 = v := by ring
  rw [e1]
  by_cases hj : j = v
  · simp [store, hj, hv]
  · by_cases hj2 : j = e
    · simp [store, hj2, h, Ne.symm hne]
    · simp [store, hj, hj2]

theorem parse_line_field (F : AttrFlags) (s : Parse) (k : Int) (l : List Nat)
    (hl : IsLine l) (hk : k + l.length < BUFSIZE) (hm : seg s.mem k (l ++ [NL])) :
    parse_line F s k =
      match process_option F (keyOf l) (valueOf l) s.fields with
      | .error e => .error e
      | .ok g =>
        .ok (⟨s.mem, s.writes ++ line_writes k l, .buf (k + l.length + 1), g⟩, true) := by
  obtain ⟨hne, h0, hnl⟩ := hl
  have hroom := room_gt k l.length hk
  have hseg := (seg_append _ _ _ _).1 hm
  have hend : s.mem (k + l.length) = NL := hseg.2.1
  have hl1 : strchr s.mem NL (room k) k = .ok (some (k + l.length)) :=
    strchr_found _ _ _ _ _ hm
      (fun x hx => ⟨fun e => hnl (e ▸ hx), fun e => h0 (e ▸ hx)⟩) hroom
  have hm1 : seg (store s.mem (k + l.length) 0) k (l ++ [0]) := by
    rw [seg_append]
    exact ⟨seg_store _ _ _ _ _ hseg.1 (Or.inr le_rfl), by simp [seg, store]⟩
  have hcs : cstring (store s.mem (k + l.length) 0) (room k) k = .ok l :=
    cstring_seg _ _ _ _ hm1 (fun x hx e => h0 (e ▸ hx)) hroom
  obtain ⟨n, hn⟩ : ∃ n, l.length = n + 1 :=
    ⟨l.length - 1, by have := List.length_pos.2 hne; omega⟩
  have hlen : strlen (store s.mem (k + l.length) 0) (room k) k = .ok (n + 1) := by
    simp only [strlen, hcs]
    rw [hn]
  unfold parse_line
  rw [hl1]
  simp only [Parse.poke]
  rw [hlen]
  by_cases heq : EQ ∈ l
  · obtain ⟨v, hv, hsplit⟩ := split_of_mem l heq
    have hlenl : l.length = (keyOf l).length + 1 + v.length := by
      conv_lhs => rw [hsplit]
      simp; omega
    have hm1' : seg (store s.mem (k + l.length) 0) k (keyOf l ++ [EQ] ++ (v ++ [0])) := by
      have : keyOf l ++ [EQ] ++ (v ++ [0]) = l ++ [0] := by
        conv_rhs => rw [hsplit]
        simp
      rw [this]; exact hm1
    have hparts := (seg_append _ _ _ _).1 hm1'
    have hka := (seg_append _ _ _ _).1 hparts.1
    have hkroom : (keyOf l).length < room k := by omega
    have hl2 : strchr (store s.mem (k + l.length) 0) EQ (room k) k
        = .ok (some (k + (keyOf l).length)) :=
      strchr_found _ _ _ _ _ hparts.1
        (fun x hx => ⟨keyOf_ne l x hx, fun e => h0 (e ▸ keyOf_subset l x hx)⟩) hkroom
    have hv0 : ∀ x ∈ v, x ≠ 0 := by
      intro x hx e
      apply h0
      rw [hsplit]
      simp [← e, hx]
    have hcsk : cstring (store (store s.mem (k + l.length) 0) (k + (keyOf l).length) 0)
        (room k) k = .ok (keyOf l) := by
      apply cstring_seg _ _ _ _ _ (fun x hx e => h0 (e ▸ keyOf_subset l x hx)) hkroom
      rw [seg_append]
      exact ⟨seg_store _ _ _ _ _ hka.1 (Or.inr le_rfl), by simp [seg, store]⟩
    have hcsv : cstring (store (store s.mem (k + l.length) 0) (k + (keyOf l).length) 0)
        (room (k + (keyOf l).length + 1)) (k + (keyOf l).length + 1) = .ok v := by
      apply cstring_seg _ _ _ _ _ hv0 (room_gt _ _ (by omega))
      apply seg_store _ _ _ _ _ _ (Or.inl (by omega))
      have := hparts.2
      simp only [List.length_append, List.length_singleton, Nat.cast_add, Nat.cast_one] at this
      have e : k + ((keyOf l).length + 1 : Int) = k + (keyOf l).length + 1 := by ring
      rw [e] at this
      exact this
    have hmv : s.mem (k + (keyOf l).length) = EQ := by
      have := hka.2.1
      rw [store] at this
      have hne2 : k + ((keyOf l).length : Int) ≠ k + l.length := by omega
      simpa [hne2] using this
    rw [hl2]
    simp only [Option.map_some', value_string, hcsk, hcsv, hv]
    cases process_option F (keyOf l) (some v) s.fields with
    | error e => rfl
    | ok g =>
      simp only [Parse.poke]
      rw [restore_two s.mem _ _ hend hmv (by omega)]
      simp [line_writes, heq]
  · obtain ⟨hv, hkey⟩ := split_of_not_mem l heq
    have hl2 : strchr (store s.mem (k + l.length) 0) EQ (room k) k = .ok none :=
      strchr_none _ _ _ _ _ hm1 (by decide)
        (fun x hx => ⟨fun e => heq (e ▸ hx), fun e => h0 (e ▸ hx)⟩) hroom
    rw [hl2]
    simp only [Option.map_none', value_string, hcs, hv, hkey]
    cases process_option F l none s.fields with
    | error e => rfl
    | ok g =>
      simp only [Parse.poke]
      rw [restore_one s.mem _ hend]
      simp [line_writes, heq]

/-! ## The parse loop over a whole request -/

theorem parse_line_empty (F : AttrFlags) (s : Parse) (k : Int)
    (hk : k < BUFSIZE) (hm : s.mem k = NL) :
    parse_line F s k =
      .ok (⟨store (store s.mem k 0) (k - 1) 0, s.writes ++ [k, k - 1], .buf (k - 1),
        s.fields⟩, false) := by
  have hroom : 0 < room k := by unfold room; omega
  obtain ⟨n, hn⟩ : ∃ n, room k = n + 1 := ⟨room k - 1, by omega⟩
  have hl1 : strchr s.mem NL (room k) k = .ok (some k) := by
    rw [hn]; simp [strchr, hm]
  have hlen : strlen (store s.mem k 0) (room k) k = .ok 0 := by
    rw [hn]; simp [strlen, cstring, store]
  unfold parse_line
  rw [hl1]
  simp only [Parse.poke]
  rw [hlen]
  simp

theorem encode_length (lines : List (List Nat)) : 0 < (encode lines).length := by
  cases lines <;> simp [encode]

theorem parse_loop_encode (F : AttrFlags) (lines : List (List Nat))
    (hl : ∀ l ∈ lines, IsLine l) (n : Nat) (hn : lines.length < n)
    (m : Mem) (w : List Int) (k : Int) (f : Fields)
    (hk : k + (encode lines).length ≤ BUFSIZE) (hm : seg m k (encode lines)) :
    parse_loop F n ⟨m, w, .buf k, f⟩ =
      match fold_lines F lines f with
      | .error e => .error e
      | .ok g =>
        .ok ⟨store (store m (k + (encode lines).length - 1) 0)
              (k + (encode lines).length - 1 - 1) 0,
            w ++ lines_writes k lines, .buf (k + (encode lines).length - 1 - 1), g⟩ := by
  induction lines generalizing n w k f with
  | nil =>
    obtain ⟨n, rfl⟩ : ∃ n', n = n' + 1 := ⟨n - 1, by simp at hn; omega⟩
    simp only [encode, List.length_singleton, Nat.cast_one] at hk ⊢
    have hmk : m k = NL := hm.1
    have e1 : k + 1 - 1 = k := by ring
    simp only [parse_loop, fold_lines]
    rw [parse_line_empty F _ k (by omega) hmk]
    simp [lines_writes, e1]
  | cons l ls ih =>
    obtain ⟨n, rfl⟩ : ∃ n', n = n' + 1 := ⟨n - 1, by simp at hn; omega⟩
    have hline : IsLine l := hl l (by simp)
    have henc : encode (l :: ls) = (l ++ [NL]) ++ encode ls := by simp [encode]
    have hlen : (encode (l :: ls)).length = l.length + 1 + (encode ls).length := by
      rw [henc]; simp; omega
    rw [henc] at hm
    have hparts := (seg_append _ _ _ _).1 hm
    have hpos := encode_length ls
    simp only [parse_loop, fold_lines]
    rw [parse_line_field F _ k l hline (by rw [hlen] at hk; push_cast at hk; omega) hparts.1]
    cases hp : process_option F (keyOf l) (valueOf l) f with
    | error e => rfl
    | ok g =>
      simp only
      have hseg2 : seg m (k + l.length + 1) (encode ls) := by
        have := hparts.2
        simp only [List.length_append, List.length_singleton, Nat.cast_add,
          Nat.cast_one] at this
        have e : k + ((l.length : Int) + 1) = k + l.length + 1 := by ring
        rw [e] at this; exact this
      rw [ih (fun x hx => hl x (by simp [hx])) n (by simpa using hn) _ _ _
        (by rw [hlen] at hk; push_cast at hk; omega) hseg2]
      have e2 : k + (l.length : Int) + 1 + (encode ls).length
          = k + (encode (l :: ls)).length := by
        rw [hlen]; push_cast; ring
      rw [e2]
      cases fold_lines F ls g with
      | error e => rfl
      | ok g2 => simp [lines_writes]

/-! ## The handler on a request -/

theorem seg_of_get (m : Mem) (bs : List Nat) (k : Int)
    (h : ∀ j : Nat, j < bs.length → m (k + j) = bs.getD j 0) : seg m k bs := by
  induction bs generalizing k with
  | nil => trivial
  | cons x xs ih =>
    refine ⟨by simpa using h 0 (by simp), ih (k + 1) ?_⟩
    intro j hj
    have := h (j + 1) (by simpa using hj)
    simp only [Nat.cast_add, Nat.cast_one, List.getD_cons_succ] at this
    rw [← this]; congr 1; ring

theorem seg_recvfrom (prior : Mem) (d : List Nat) (h : d.length < BUFSIZE) :
    seg (recvfrom prior (some d)).2 0 d := by
  apply seg_of_get
  intro j hj
  have ht : d.take (BUFSIZE - 1) = d := List.take_of_length_le (by omega)
  simp only [recvfrom, ht, zero_add]
  have : (0 : Int) ≤ j ∧ (j : Int) < d.length := ⟨by omega, by omega⟩
  simp [this]

theorem recvfrom_fst (prior : Mem) (d : List Nat) (h : d.length < BUFSIZE) :
    (recvfrom prior (some d)).1 = d.length := by
  have ht : d.take (BUFSIZE - 1) = d := List.take_of_length_le (by omega)
  simp [recvfrom, ht]

theorem handler_request (F : AttrFlags) (E : Env) (sock : Int) (prior : Mem)
    (lines : List (List Nat)) (T : List Nat) (g : Fields)
    (hres : 0 < E.result) (hsock : 0 ≤ sock) (hready : E.ready = true)
    (hd : E.dgram = some (encode lines ++ T))
    (hlen : (encode lines ++ T).length < BUFSIZE)
    (hl : ∀ l ∈ lines, IsLine l)
    (hg : fold_lines F lines Fields.init = .ok g) :
    x11hotplug_wakeup_handler F E sock prior
      = request_outcome E sock prior (encode lines ++ T) lines g := by
  have hgate : ¬ (E.result ≤ 0 ∨ sock < 0 ∨ E.ready = false) := by
    simp [hready]; omega
  have hpos := encode_length lines
  have hret := recvfrom_fst prior _ hlen
  have hseg : seg (store (recvfrom prior (some (encode lines ++ T))).2
      ((encode lines ++ T).length : Int) 0) 0 (encode lines) := by
    apply seg_store
    · exact ((seg_append _ _ _ _).1 (seg_recvfrom prior _ hlen)).1
    · right; simp
  have hloop := parse_loop_encode F lines hl BUFSIZE
    (by
      have : lines.length < (encode lines).length := by
        clear hl hg hd hlen hpos hret hseg
        induction lines with
        | nil => simp [encode]
        | cons l ls ih => simp [encode]; omega
      simp at hlen; omega)
    _ [((encode lines ++ T).length : Int)] 0 Fields.init
    (by simp at hlen ⊢; omega) hseg
  rw [hg] at hloop
  unfold x11hotplug_wakeup_handler
  rw [if_neg hgate, hd]
  have hsplit : recvfrom prior (some (encode lines ++ T))
      = ((recvfrom prior (some (encode lines ++ T))).1,
         (recvfrom prior (some (encode lines ++ T))).2) := rfl
  rw [hsplit, hret]
  have hnot : ¬ (((encode lines ++ T).length : Int) ≤ 0) := by simp; omega
  simp only [hnot, if_false, Parse.poke, List.nil_append]
  rw [hloop]
  simp [request_outcome, done_state]

theorem handler_request_fault (F : AttrFlags) (E : Env) (sock : Int) (prior : Mem)
    (lines : List (List Nat)) (T : List Nat) (e : Fault)
    (hres : 0 < E.result) (hsock : 0 ≤ sock) (hready : E.ready = true)
    (hd : E.dgram = some (encode lines ++ T))
    (hlen : (encode lines ++ T).length < BUFSIZE)
    (hl : ∀ l ∈ lines, IsLine l)
    (hg : fold_lines F lines Fields.init = .error e) :
    (x11hotplug_wakeup_handler F E sock prior).trace = []
    ∧ (x11hotplug_wakeup_handler F E sock prior).fault = some e := by
  have hgate : ¬ (E.result ≤ 0 ∨ sock < 0 ∨ E.ready = false) := by
    simp [hready]; omega
  have hpos := encode_length lines
  have hret := recvfrom_fst prior _ hlen
  have hseg : seg (store (recvfrom prior (some (encode lines ++ T))).2
      ((encode lines ++ T).length : Int) 0) 0 (encode lines) := by
    apply seg_store
    · exact ((seg_append _ _ _ _).1 (seg_recvfrom prior _ hlen)).1
    · right; simp
  have hloop := parse_loop_encode F lines hl BUFSIZE
    (by
      have : lines.length < (encode lines).length := by
        clear hl hg hd hlen hpos hret hseg
        induction lines with
        | nil => simp [encode]
        | cons l ls ih => simp [encode]; omega
      simp at hlen; omega)
    _ [((encode lines ++ T).length : Int)] 0 Fields.init
    (by simp at hlen ⊢; omega) hseg
  rw [hg] at hloop
  unfold x11hotplug_wakeup_handler
  rw [if_neg hgate, hd]
  have hsplit : recvfrom prior (some (encode lines ++ T))
      = ((recvfrom prior (some (encode lines ++ T))).1,
         (recvfrom prior (some (encode lines ++ T))).2) := rfl
  rw [hsplit, hret]
  have hnot : ¬ (((encode lines ++ T).length : Int) ≤ 0) := by simp; omega
  simp only [hnot, if_false, Parse.poke, List.nil_append]
  rw [hloop]
  exact ⟨rfl, rfl⟩

/-! ## The reply -/

theorem sprintf_below (s : Parse) (k : Int) (bs : List Nat) (j : Int) (hj : j < k) :
    (s.sprintf k bs).mem j = s.mem j := by
  induction bs generalizing s k with
  | nil =>
    have : j ≠ k := by omega
    simp [Parse.sprintf, Parse.poke, store, this]
  | cons b bs ih =>
    have : j ≠ k := by omega
    simp only [Parse.sprintf]
    rw [ih _ (k + 1) (by omega)]
    simp [Parse.poke, store, this]

theorem sprintf_seg (s : Parse) (k : Int) (bs : List Nat) :
    seg (s.sprintf k bs).mem k (bs ++ [0]) := by
  induction bs generalizing s k with
  | nil => simp [Parse.sprintf, Parse.poke, store, seg]
  | cons b bs ih =>
    refine ⟨?_, ih _ (k + 1)⟩
    simp only [Parse.sprintf]
    rw [sprintf_below _ _ _ _ (by omega)]
    simp [Parse.poke, store]

theorem sprintf_keeps_seg (s : Parse) (k a : Int) (bs xs : List Nat)
    (h : seg s.mem a xs) (hk : a + xs.length ≤ k) : seg (s.sprintf k bs).mem a xs := by
  induction xs generalizing a with
  | nil => trivial
  | cons x xs ih =>
    simp only [List.length_cons, Nat.cast_add, Nat.cast_one] at hk
    refine ⟨?_, ih (a + 1) h.2 (by omega)⟩
    rw [sprintf_below _ _ _ _ (by omega)]
    exact h.1

theorem map_range_seg (m : Mem) (k : Int) (bs : List Nat) (h : seg m k bs) :
    (List.range bs.length).map (fun (j : Nat) => m (k + (j : Int))) = bs := by
  induction bs generalizing k with
  | nil => rfl
  | cons x xs ih =>
    rw [List.length_cons, List.range_succ_eq_map, List.map_cons, List.map_map]
    have := ih (k + 1) h.2
    simp only [Nat.cast_zero, add_zero, h.1]
    congr 1
    refine Eq.trans ?_ this
    apply List.map_congr_left
    intro j _
    simp only [Function.comp, Nat.cast_succ]
    congr 1; ring

theorem payload_seg (m : Mem) (bs : List Nat) (n : Int) (hn : n = bs.length)
    (h : seg m 0 bs) : payload m n = bs := by
  subst hn
  have := map_range_seg m 0 bs h
  simpa [payload] using this

theorem encode_two (lines : List (List Nat)) (h : lines ≠ []) :
    ∃ A, encode lines = A ++ [NL, NL] := by
  induction lines with
  | nil => exact absurd rfl h
  | cons l ls ih =>
    cases ls with
    | nil => exact ⟨l, by simp [encode]⟩
    | cons l2 ls2 =>
      obtain ⟨A, hA⟩ := ih (by simp)
      exact ⟨l ++ NL :: A, by rw [encode, hA]; simp⟩

theorem result_line_cons (failure : Option (List Nat)) :
    result_line failure = NL :: (cstr "result=" ++ failure.getD (cstr "ok")) := by
  rfl

/-- The bytes handed to `sendto` for a request: the request without its
terminating empty line, then `result=` and the reason. -/
theorem payload_request (prior : Mem) (lines : List (List Nat)) (T : List Nat)
    (g : Fields) (failure : Option (List Nat))
    (hlen : (encode lines ++ T).length < BUFSIZE) :
    payload ((done_state prior (encode lines ++ T) lines g).sprintf
        ((encode lines).length - 1 - 1) (result_line failure)).mem
        ((encode lines).length - 1 - 1 + (result_line failure).length)
      = (encode lines).dropLast ++ cstr "result=" ++ failure.getD (cstr "ok") := by
  have hline := sprintf_seg (done_state prior (encode lines ++ T) lines g)
    ((encode lines).length - 1 - 1) (result_line failure)
  rw [seg_append] at hline
  have hl1 := hline.1
  rw [result_line_cons] at hl1 ⊢
  by_cases hne : lines = []
  · subst hne
    apply payload_seg
    · simp [encode]
    · simp only [encode, List.length_singleton, Nat.cast_one, List.dropLast_single,
        List.nil_append] at hl1 ⊢
      have := hl1.2
      simpa using this
  · obtain ⟨A, hA⟩ := encode_two lines hne
    have hAl : ((encode lines).length : Int) - 1 - 1 = A.length := by
      rw [hA]; simp; ring
    have hdrop : (encode lines).dropLast = A ++ [NL] := by
      rw [hA]
      have : A ++ [NL, NL] = (A ++ [NL]) ++ [NL] := by simp
      rw [this, List.dropLast_concat]
    rw [hdrop]
    rw [hAl] at hl1 ⊢
    have hrecv := seg_recvfrom prior _ hlen
    have hsA : seg (recvfrom prior (some (encode lines ++ T))).2 0 A :=
      seg_left _ _ _ _ ([NL, NL] ++ T) hrecv (by rw [hA]; simp)
    have hlen2 : (A.length : Int) + 2 = (encode lines).length := by omega
    have hdone : seg (done_state prior (encode lines ++ T) lines g).mem 0 A := by
      simp only [done_state]
      apply seg_store _ _ _ _ _ _ (Or.inr (by omega))
      apply seg_store _ _ _ _ _ _ (Or.inr (by omega))
      apply seg_store _ _ _ _ _ hsA (Or.inr (by simp; omega))
    have hkeep := sprintf_keeps_seg (done_state prior (encode lines ++ T) lines g)
      A.length 0 (NL :: (cstr "result=" ++ failure.getD (cstr "ok"))) A hdone (by simp)
    apply payload_seg
    · simp
    · have e : A ++ [NL] ++ cstr "result=" ++ failure.getD (cstr "ok")
          = A ++ NL :: (cstr "result=" ++ failure.getD (cstr "ok")) := by simp
      rw [e, seg_append]
      refine ⟨hkeep, ?_⟩
      simpa using hl1

/-! ## The typed fields after a request -/

theorem fold_lines_append (F : AttrFlags) (a b : List (List Nat)) (f : Fields) :
    fold_lines F (a ++ b) f =
      match fold_lines F a f with
      | .ok g => fold_lines F b g
      | .error e => .error e := by
  induction a generalizing f with
  | nil => rfl
  | cons l ls ih =>
    simp only [List.cons_append, fold_lines]
    cases process_option F (keyOf l) (valueOf l) f with
    | error e => rfl
    | ok g => exact ih g

theorem process_option_ok (F : AttrFlags) (l : List Nat) (f : Fields)
    (h : l ≠ cstr "type") : ∃ g, process_option F (keyOf l) (valueOf l) f = .ok g := by
  have hk : ∃ g, process_key F (keyOf l) (valueOf l) f = .ok g := by
    unfold process_key
    split_ifs with h1 h2 h3 h4 h5 h6 h7
    all_goals first
      | exact ⟨_, rfl⟩
      | skip
    cases hv : valueOf l with
    | some v =>
      unfold process_type
      simp only
      split_ifs <;> exact ⟨_, rfl⟩
    | none =>
      exfalso
      have hnot : EQ ∉ l := by
        intro hmem
        obtain ⟨v, hv', _⟩ := split_of_mem l hmem
        rw [hv] at hv'; cases hv'
      exact h ((split_of_not_mem l hnot).2 ▸ h2)
  obtain ⟨g, hg⟩ := hk
  unfold process_option
  rw [hg]
  exact ⟨_, rfl⟩

theorem fold_lines_ok (F : AttrFlags) (lines : List (List Nat)) (f : Fields)
    (h : cstr "type" ∉ lines) : ∃ g, fold_lines F lines f = .ok g := by
  induction lines generalizing f with
  | nil => exact ⟨f, rfl⟩
  | cons l ls ih =>
    obtain ⟨g, hg⟩ := process_option_ok F l f (fun e => h (by simp [e]))
    obtain ⟨g2, hg2⟩ := ih g (fun hm => h (by simp [hm]))
    exact ⟨g2, by simp [fold_lines, hg, hg2]⟩

theorem process_key_options (F : AttrFlags) (k : List Nat) (v : Option (List Nat))
    (f g : Fields) (h : process_key F k v f = .ok g) : g.options = f.options := by
  unfold process_key at h
  split_ifs at h
  all_goals first
    | (cases h; rfl)
    | skip
  unfold process_type at h
  cases v with
  | none => cases h
  | some v =>
    simp only at h
    split_ifs at h <;> cases h <;> rfl

theorem process_option_options (F : AttrFlags) (k : List Nat) (v : Option (List Nat))
    (f g : Fields) (h : process_option F k v f = .ok g) :
    g.options = f.options ++ [(k, v)] := by
  unfold process_option at h
  cases hk : process_key F k v f with
  | error e => rw [hk] at h; cases h
  | ok g1 =>
    rw [hk] at h
    cases h
    simp [input_option_new, process_key_options F k v f g1 hk]

theorem fold_lines_options (F : AttrFlags) (lines : List (List Nat)) (f g : Fields)
    (h : fold_lines F lines f = .ok g) : g.options = f.options ++ lines.map pair := by
  induction lines generalizing f with
  | nil => cases h; simp
  | cons l ls ih =>
    simp only [fold_lines] at h
    cases hp : process_option F (keyOf l) (valueOf l) f with
    | error e => rw [hp] at h; cases h
    | ok g1 =>
      rw [hp] at h
      rw [ih g1 h, process_option_options F _ _ f g1 hp]
      simp [pair]

theorem process_type_get (F : AttrFlags) (v : Option (List Nat)) (f g : Fields)
    (h : process_type F v f = .ok g) :
    g.hotplug_action = f.hotplug_action ∧ g.device = f.device
      ∧ g.attrs.device = f.attrs.device ∧ g.attrs.vendor = f.attrs.vendor
      ∧ g.attrs.product = f.attrs.product ∧ g.attrs.pnp_id = f.attrs.pnp_id
      ∧ g.attrs.usb_id = f.attrs.usb_id := by
  unfold process_type at h
  cases v with
  | none => cases h
  | some v =>
    simp only at h
    split_ifs at h <;> cases h <;> simp [Fields.orFlag]

theorem process_key_get (F : AttrFlags) (k : List Nat) (v : Option (List Nat))
    (f g : Fields) (K : TypedKey) (h : process_key F k v f = .ok g) :
    K.get g = if k = K.name then v else K.get f := by
  unfold process_key at h
  split_ifs at h with h1 h2 h3 h4 h5 h6 h7
  · cases h; subst h1
    cases K <;> first
      | (rw [if_pos (by decide)]; rfl)
      | (rw [if_neg (by decide)]; rfl)
  · have ht := process_type_get F v f g h
    subst h2
    cases K <;> rw [if_neg (by decide)] <;> simp [TypedKey.get, ht]
  · cases h; subst h3
    cases K <;> first
      | (rw [if_pos (by decide)]; rfl)
      | (rw [if_neg (by decide)]; rfl)
  · cases h; subst h4
    cases K <;> first
      | (rw [if_pos (by decide)]; rfl)
      | (rw [if_neg (by decide)]; rfl)
  · cases h; subst h5
    cases K <;> first
      | (rw [if_pos (by decide)]; rfl)
      | (rw [if_neg (by decide)]; rfl)
  · cases h; subst h6
    cases K <;> first
      | (rw [if_pos (by decide)]; rfl)
      | (rw [if_neg (by decide)]; rfl)
  · cases h; subst h7
    cases K <;> first
      | (rw [if_pos (by decide)]; rfl)
      | (rw [if_neg (by decide)]; rfl)
  · cases h
    cases K <;> simp [TypedKey.name, TypedKey.get, *]

theorem process_key_device (F : AttrFlags) (k : List Nat) (v : Option (List Nat))
    (f g : Fields) (h : process_key F k v f = .ok g) :
    g.device = if k = cstr "device" then v else f.device := by
  unfold process_key at h
  split_ifs at h with h1 h2 h3 h4 h5 h6 h7
  · cases h; subst h1; rw [if_neg (by decide)]
  · have ht := process_type_get F v f g h
    subst h2; rw [if_neg (by decide)]; exact ht.2.1
  · cases h; subst h3; rw [if_pos rfl]; rfl
  · cases h; subst h4; rw [if_neg (by decide)]
  · cases h; subst h5; rw [if_neg (by decide)]
  · cases h; subst h6; rw [if_neg (by decide)]
  · cases h; subst h7; rw [if_neg (by decide)]
  · cases h; rw [if_neg h3]

theorem process_option_get (F : AttrFlags) (k : List Nat) (v : Option (List Nat))
    (f g : Fields) (K : TypedKey) (h : process_option F k v f = .ok g) :
    K.get g = if k = K.name then v else K.get f := by
  unfold process_option at h
  cases hk : process_key F k v f with
  | error e => rw [hk] at h; cases h
  | ok g1 =>
    rw [hk] at h
    cases h
    rw [← process_key_get F k v f g1 K hk]
    cases K <;> rfl

theorem process_option_device (F : AttrFlags) (k : List Nat) (v : Option (List Nat))
    (f g : Fields) (h : process_option F k v f = .ok g) :
    g.device = if k = cstr "device" then v else f.device := by
  unfold process_option at h
  cases hk : process_key F k v f with
  | error e => rw [hk] at h; cases h
  | ok g1 =>
    rw [hk] at h
    cases h
    exact process_key_device F k v f g1 hk

theorem fold_lines_get (F : AttrFlags) (lines : List (List Nat)) (f g : Fields)
    (K : TypedKey) (h : fold_lines F lines f = .ok g) :
    K.get g = match lines.reverse.find? (fun l => keyOf l = K.name) with
      | some l => valueOf l
      | none => K.get f := by
  induction lines generalizing f with
  | nil => cases h; rfl
  | cons l ls ih =>
    simp only [fold_lines] at h
    cases hp : process_option F (keyOf l) (valueOf l) f with
    | error e => rw [hp] at h; cases h
    | ok g1 =>
      rw [hp] at h
      rw [ih g1 h, List.reverse_cons, List.find?_append,
        process_option_get F _ _ f g1 K hp]
      cases List.find? (fun l => decide (keyOf l = K.name)) ls.reverse with
      | some l2 => rfl
      | none =>
        by_cases hk : keyOf l = K.name <;> simp [List.find?, hk]

theorem fold_lines_device (F : AttrFlags) (lines : List (List Nat)) (f g : Fields)
    (h : fold_lines F lines f = .ok g) :
    g.device = match lines.reverse.find? (fun l => keyOf l = cstr "device") with
      | some l => valueOf l
      | none => f.device := by
  induction lines generalizing f with
  | nil => cases h; rfl
  | cons l ls ih =>
    simp only [fold_lines] at h
    cases hp : process_option F (keyOf l) (valueOf l) f with
    | error e => rw [hp] at h; cases h
    | ok g1 =>
      rw [hp] at h
      rw [ih g1 h, List.reverse_cons, List.find?_append,
        process_option_device F _ _ f g1 hp]
      cases List.find? (fun l => decide (keyOf l = cstr "device")) ls.reverse with
      | some l2 => rfl
      | none =>
        by_cases hk : keyOf l = cstr "device" <;> simp [List.find?, hk]

theorem fold_init_get (F : AttrFlags) (lines : List (List Nat)) (g : Fields)
    (K : TypedKey) (h : fold_lines F lines Fields.init = .ok g) :
    K.get g = lastValue K.name lines := by
  rw [fold_lines_get F lines _ g K h, lastValue]
  cases K <;> rfl

theorem fold_init_device (F : AttrFlags) (lines : List (List Nat)) (g : Fields)
    (h : fold_lines F lines Fields.init = .ok g) :
    g.device = lastValue (cstr "device") lines := by
  rw [fold_lines_device F lines _ g h, lastValue]
  rfl

theorem process_type_flags (F : AttrFlags) (v : Option (List Nat)) (f g : Fields)
    (h : process_type F v f = .ok g) :
    g.attrs.flags = match v.bind (typeTag F) with
      | some b => f.attrs.flags ||| b
      | none => f.attrs.flags := by
  unfold process_type at h
  cases v with
  | none => cases h
  | some v =>
    simp only at h
    simp only [Option.some_bind, typeTag]
    split_ifs at h ⊢ <;> cases h <;> rfl

theorem process_option_flags (F : AttrFlags) (k : List Nat) (v : Option (List Nat))
    (f g : Fields) (h : process_option F k v f = .ok g) :
    g.attrs.flags =
      match (if k = cstr "type" then v.bind (typeTag F) else none) with
      | some b => f.attrs.flags ||| b
      | none => f.attrs.flags := by
  unfold process_option at h
  cases hk : process_key F k v f with
  | error e => rw [hk] at h; cases h
  | ok g1 =>
    rw [hk] at h
    cases h
    show g1.attrs.flags = _
    unfold process_key at hk
    split_ifs at hk with h1 h2 h3 h4 h5 h6 h7
    · cases hk; subst h1; rw [if_neg (by decide)]
    · rw [if_pos h2]; exact process_type_flags F v f g1 hk
    · cases hk; rw [if_neg h2]
    · cases hk; rw [if_neg h2]
    · cases hk; rw [if_neg h2]
    · cases hk; rw [if_neg h2]
    · cases hk; rw [if_neg h2]
    · cases hk; rw [if_neg h2]

theorem fold_lines_flags (F : AttrFlags) (lines : List (List Nat)) (f g : Fields)
    (h : fold_lines F lines f = .ok g) :
    g.attrs.flags = (tags F lines).foldl (fun a b => a ||| b) f.attrs.flags := by
  induction lines generalizing f with
  | nil => cases h; rfl
  | cons l ls ih =>
    simp only [fold_lines] at h
    cases hp : process_option F (keyOf l) (valueOf l) f with
    | error e => rw [hp] at h; cases h
    | ok g1 =>
      rw [hp] at h
      rw [ih g1 h, process_option_flags F _ _ f g1 hp]
      simp only [tags, List.filterMap_cons]
      cases (if keyOf l = cstr "type" then (valueOf l).bind (typeTag F) else none) with
      | none => rfl
      | some b => rfl

/-! ## The trace of a request -/

theorem registry_calls_append (a b : List Call) :
    registry_calls (a ++ b) = registry_calls a ++ registry_calls b := by
  simp [registry_calls]

theorem replies_append (a b : List Call) : replies (a ++ b) = replies a ++ replies b := by
  simp [replies]

theorem registry_safe_xfree (v : Var) (x : Option (List Nat)) :
    registry_calls (safe_xfree v x) = [] := by
  cases x <;> rfl

theorem replies_safe_xfree (v : Var) (x : Option (List Nat)) :
    replies (safe_xfree v x) = [] := by
  cases x <;> rfl

theorem registry_cleanup (f : Fields) (o : List InputOption) (fl : Option (List Nat)) :
    registry_calls (cleanup f o fl) = [] := by
  obtain ⟨a, d, ⟨x1, x2, x3, x4, x5, x6⟩, o2⟩ := f
  cases fl <;> cases a <;> cases d <;> cases x1 <;> cases x2 <;> cases x3 <;> cases x4
    <;> cases x5 <;> rfl

theorem replies_cleanup (f : Fields) (o : List InputOption) (fl : Option (List Nat)) :
    replies (cleanup f o fl) = [] := by
  obtain ⟨a, d, ⟨x1, x2, x3, x4, x5, x6⟩, o2⟩ := f
  cases fl <;> cases a <;> cases d <;> cases x1 <;> cases x2 <;> cases x3 <;> cases x4
    <;> cases x5 <;> rfl

theorem replies_dispatch (E : Env) (g : Fields) : replies (dispatch E g).2.2 = [] := by
  unfold dispatch
  cases g.device with
  | none => rfl
  | some dev =>
    simp only
    by_cases ha : E.asprintf_ok = false
    · rw [if_pos ha]; rfl
    · rw [if_neg ha]
      cases g.hotplug_action with
      | none => rfl
      | some a =>
        simp only
        split_ifs <;> rfl

theorem outcome_registry (E : Env) (sock : Int) (prior : Mem) (d : List Nat)
    (lines : List (List Nat)) (g : Fields) :
    registry_calls (request_outcome E sock prior d lines g).trace
      = registry_calls (dispatch E g).2.2 := by
  simp only [request_outcome, registry_calls_append, registry_cleanup, List.append_nil]
  split_ifs <;> simp [registry_calls, Call.isRegistry]

theorem outcome_replies (E : Env) (sock : Int) (prior : Mem)
    (lines : List (List Nat)) (T : List Nat) (g : Fields)
    (hlen : (encode lines ++ T).length < BUFSIZE) :
    replies (request_outcome E sock prior (encode lines ++ T) lines g).trace
      = [(encode lines).dropLast ++ cstr "result=" ++ (dispatch E g).2.1.getD (cstr "ok")] := by
  simp only [request_outcome, replies_append, replies_cleanup, replies_dispatch,
    List.append_nil, List.nil_append]
  rw [payload_request prior lines T g _ hlen]
  split_ifs <;> simp [replies]

theorem arrives_outcome (F : AttrFlags) (E : Env) (sock : Int) (prior : Mem)
    (lines : List (List Nat)) (h : Arrives E sock lines) :
    ∃ g, fold_lines F lines Fields.init = .ok g
      ∧ x11hotplug_wakeup_handler F E sock prior
          = request_outcome E sock prior (encode lines ++ []) lines g := by
  obtain ⟨g, hg⟩ := fold_lines_ok F lines Fields.init h.typed
  exact ⟨g, hg, handler_request F E sock prior lines [] g h.result h.sock h.ready
    (by simpa using h.dgram) (by simpa using h.fits) h.text hg⟩

theorem lastValue_none (key : List Nat) (lines : List (List Nat))
    (h : ∀ l ∈ lines, keyOf l ≠ key) : lastValue key lines = none := by
  have : lines.reverse.find? (fun l => keyOf l = key) = none := by
    rw [List.find?_eq_none]
    intro l hl
    simpa using h l (List.mem_reverse.1 hl)
  simp [lastValue, this]

theorem lastValue_last (key : List Nat) (pre post : List (List Nat)) (l : List Nat)
    (hl : keyOf l = key) (hpost : ∀ x ∈ post, keyOf x ≠ key) :
    lastValue key (pre ++ l :: post) = valueOf l := by
  have hnone : post.reverse.find? (fun x => keyOf x = key) = none := by
    rw [List.find?_eq_none]
    intro x hx
    simpa using hpost x (List.mem_reverse.1 hx)
  simp [lastValue, List.find?_append, hnone, List.find?, hl]

/-! ## The dispatch, case by case -/

theorem dispatch_no_device (E : Env) (g : Fields) (h : g.device = none) :
    dispatch E g = (g.options, some (cstr "no device"), []) := by
  simp [dispatch, h]

theorem dispatch_add (E : Env) (g : Fields) (dev : List Nat) (h : g.device = some dev)
    (ha : E.asprintf_ok = true) (hact : g.hotplug_action = some (cstr "add")) :
    dispatch E g =
      if E.NewInputDeviceRequest
          (g.options ++ [(cstr "config_info", some (BACKENDSTR ++ cstr ":" ++ dev))])
          g.attrs ≠ Success then
        (g.options ++ [(cstr "config_info", some (BACKENDSTR ++ cstr ":" ++ dev))],
          some (cstr "NewInputDeviceRequest failed"),
          [Call.remove_devices BACKENDSTR (BACKENDSTR ++ cstr ":" ++ dev),
           Call.NewInputDeviceRequest
             (g.options ++ [(cstr "config_info", some (BACKENDSTR ++ cstr ":" ++ dev))])
             g.attrs,
           Call.ErrorF (LOGPREFIX ++ cstr "NewInputDeviceRequest " ++ dev
             ++ cstr " failed\n")])
      else
        (g.options ++ [(cstr "config_info", some (BACKENDSTR ++ cstr ":" ++ dev))], none,
          [Call.remove_devices BACKENDSTR (BACKENDSTR ++ cstr ":" ++ dev),
           Call.NewInputDeviceRequest
             (g.options ++ [(cstr "config_info", some (BACKENDSTR ++ cstr ":" ++ dev))])
             g.attrs,
           Call.LogMessage (LOGPREFIX ++ cstr "New input device " ++ dev ++ cstr "\n")]) := by
  simp [dispatch, h, ha, hact, input_option_new]

theorem dispatch_remove (E : Env) (g : Fields) (dev : List Nat) (h : g.device = some dev)
    (ha : E.asprintf_ok = true) (hact : g.hotplug_action = some (cstr "remove")) :
    dispatch E g =
      (g.options ++ [(cstr "config_info", some (BACKENDSTR ++ cstr ":" ++ dev))], none,
        [Call.remove_devices BACKENDSTR (BACKENDSTR ++ cstr ":" ++ dev)]) := by
  have hne : cstr "remove" ≠ cstr "add" := by decide
  simp [dispatch, h, ha, hact, input_option_new, hne]

theorem dispatch_other (E : Env) (g : Fields) (dev : List Nat) (h : g.device = some dev)
    (ha : E.asprintf_ok = true) (hadd : g.hotplug_action ≠ some (cstr "add"))
    (hrem : g.hotplug_action ≠ some (cstr "remove")) :
    dispatch E g =
      (g.options ++ [(cstr "config_info", some (BACKENDSTR ++ cstr ":" ++ dev))],
        some (if g.hotplug_action.isSome then cstr "unsupported action"
          else cstr "no action for event"), []) := by
  cases hact : g.hotplug_action with
  | none => simp [dispatch, h, ha, hact, input_option_new]
  | some a =>
    have h1 : a ≠ cstr "add" := fun e => hadd (by rw [hact, e])
    have h2 : a ≠ cstr "remove" := fun e => hrem (by rw [hact, e])
    simp [dispatch, h, ha, hact, input_option_new, h1, h2]

theorem dispatch_quiet (E : Env) (g : Fields)
    (hadd : g.hotplug_action ≠ some (cstr "add"))
    (hrem : g.hotplug_action ≠ some (cstr "remove")) :
    (dispatch E g).2.2 = [] := by
  cases hd : g.device with
  | none => rw [dispatch_no_device E g hd]
  | some dev =>
    by_cases ha : E.asprintf_ok = true
    · rw [dispatch_other E g dev hd ha hadd hrem]
    · simp [dispatch, hd, ha]

theorem dispatch_options (E : Env) (g : Fields) (dev : List Nat) (h : g.device = some dev)
    (ha : E.asprintf_ok = true) :
    (dispatch E g).1
      = g.options ++ [(cstr "config_info", some (BACKENDSTR ++ cstr ":" ++ dev))] := by
  by_cases hadd : g.hotplug_action = some (cstr "add")
  · rw [dispatch_add E g dev h ha hadd]
    split_ifs <;> rfl
  · by_cases hrem : g.hotplug_action = some (cstr "remove")
    · rw [dispatch_remove E g dev h ha hrem]
    · rw [dispatch_other E g dev h ha hadd hrem]

theorem dispatch_keeps_options (E : Env) (g : Fields) :
    g.options <+: (dispatch E g).1 := by
  cases hd : g.device with
  | none => rw [dispatch_no_device E g hd]
  | some dev =>
    by_cases ha : E.asprintf_ok = true
    · rw [dispatch_options E g dev hd ha]
      exact List.prefix_append _ _
    · simp [dispatch, hd, ha]

theorem arrives_envOk (lines : List (List Nat)) (hfit : (encode lines).length < BUFSIZE)
    (htext : ∀ l ∈ lines, IsLine l) (htyped : cstr "type" ∉ lines) :
    Arrives (envOk (encode lines)) 3 lines :=
  ⟨Int.one_pos, by decide, rfl, rfl, hfit, htext, htyped⟩

theorem result_ok : cstr "result=" ++ cstr "ok" = cstr "result=ok" := by decide

theorem result_no_device :
    cstr "result=" ++ cstr "no device" = cstr "result=no device" := by decide

theorem result_failed :
    cstr "result=" ++ cstr "NewInputDeviceRequest failed"
      = cstr "result=NewInputDeviceRequest failed" := by decide

theorem result_unsupported :
    cstr "result=" ++ cstr "unsupported action" = cstr "result=unsupported action" := by
  decide

theorem result_no_action :
    cstr "result=" ++ cstr "no action for event" = cstr "result=no action for event" := by
  decide

theorem not_ok_suffix_failed (reply pre : List Nat)
    (h : reply = pre ++ cstr "result=NewInputDeviceRequest failed") :
    ¬ cstr "result=ok" <:+ reply := by
  intro hs
  have h2 : cstr "result=NewInputDeviceRequest failed" <:+ reply :=
    h ▸ List.suffix_append _ _
  have := List.suffix_of_suffix_length_le hs h2 (by decide)
  revert this
  decide

/-! ## The claims -/

/-- C1: for every request that carries a `device` value and whose action is
`add`, when `asprintf` succeeds, the handler calls `remove_devices` once and
then `NewInputDeviceRequest` once, and makes no other registry call; it sends
one reply, which ends in `result=ok` exactly when `NewInputDeviceRequest`
returned `Success`, and ends in `result=NewInputDeviceRequest failed`
otherwise. -/
theorem add_evicts_then_creates (F : AttrFlags) (E : Env) (sock : Int) (prior : Mem)
    (lines : List (List Nat)) (dev : List Nat) (h : Arrives E sock lines)
    (hdev : lastValue (cstr "device") lines = some dev)
    (hact : lastValue (cstr "action") lines = some (cstr "add"))
    (hasp : E.asprintf_ok = true) :
    ∃ options attrs reply,
      registry_calls (x11hotplug_wakeup_handler F E sock prior).trace
        = [Call.remove_devices BACKENDSTR (BACKENDSTR ++ cstr ":" ++ dev),
           Call.NewInputDeviceRequest options attrs]
      ∧ replies (x11hotplug_wakeup_handler F E sock prior).trace = [reply]
      ∧ (cstr "result=ok" <:+ reply ↔ E.NewInputDeviceRequest options attrs = Success)
      ∧ (E.NewInputDeviceRequest options attrs ≠ Success →
          cstr "result=NewInputDeviceRequest failed" <:+ reply) := by
  obtain ⟨g, hg, hout⟩ := arrives_outcome F E sock prior lines h
  have hd : g.device = some dev := by rw [fold_init_device F lines g hg, hdev]
  have ha : g.hotplug_action = some (cstr "add") := by
    rw [← hact]; exact fold_init_get F lines g .action hg
  have hfit : (encode lines ++ []).length < BUFSIZE := by simpa using h.fits
  rw [hout, outcome_registry, outcome_replies E sock prior lines [] g hfit,
    dispatch_add E g dev hd hasp ha]
  refine ⟨g.options ++ [(cstr "config_info", some (BACKENDSTR ++ cstr ":" ++ dev))],
    g.attrs, _, ?_, rfl, ?_, ?_⟩
  · split_ifs <;> rfl
  · by_cases hs : E.NewInputDeviceRequest
        (g.options ++ [(cstr "config_info", some (BACKENDSTR ++ cstr ":" ++ dev))])
        g.attrs = Success
    · simp only [hs, ne_eq, not_true_eq_false, if_false, Option.getD_none, iff_true]
      rw [List.append_assoc, result_ok]
      exact List.suffix_append _ _
    · simp only [hs, ne_eq, not_false_eq_true, if_true, Option.getD_some, iff_false]
      exact not_ok_suffix_failed _ (encode lines).dropLast
        (by rw [List.append_assoc, result_failed])
  · intro hs
    simp only [hs, ne_eq, not_false_eq_true, if_true, Option.getD_some]
    rw [List.append_assoc, result_failed]
    exact List.suffix_append _ _

/-- C1, on the request `action=add`, `device=/dev/input/event3`,
`type=keyboard`. -/
theorem add_evicts_then_creates_witness :
    Arrives (envOk (encode addRequest)) 3 addRequest
    ∧ lastValue (cstr "device") addRequest = some (cstr "/dev/input/event3")
    ∧ lastValue (cstr "action") addRequest = some (cstr "add")
    ∧ (envOk (encode addRequest)).asprintf_ok = true
    ∧ ∃ options attrs reply,
      registry_calls (x11hotplug_wakeup_handler xorgFlags (envOk (encode addRequest)) 3
          zeroMem).trace
        = [Call.remove_devices BACKENDSTR (BACKENDSTR ++ cstr ":" ++ cstr "/dev/input/event3"),
           Call.NewInputDeviceRequest options attrs]
      ∧ replies (x11hotplug_wakeup_handler xorgFlags (envOk (encode addRequest)) 3
          zeroMem).trace = [reply]
      ∧ (cstr "result=ok" <:+ reply
          ↔ (envOk (encode addRequest)).NewInputDeviceRequest options attrs = Success)
      ∧ ((envOk (encode addRequest)).NewInputDeviceRequest options attrs ≠ Success →
          cstr "result=NewInputDeviceRequest failed" <:+ reply) :=
  ⟨arrives_envOk addRequest (by decide) (by decide) (by decide), by decide, by decide, rfl,
    add_evicts_then_creates xorgFlags (envOk (encode addRequest)) 3 zeroMem addRequest
      (cstr "/dev/input/event3")
      (arrives_envOk addRequest (by decide) (by decide) (by decide))
      (by decide) (by decide) rfl⟩

/-- What holds of a request without a `device` line when none of its lines is
the bare word `type`: the handler makes no registry call and its one reply is
the request without its terminating empty line followed by
`result=no device`. -/
theorem missing_device_rejected (F : AttrFlags) (E : Env) (sock : Int) (prior : Mem)
    (lines : List (List Nat)) (h : Arrives E sock lines)
    (hdev : ∀ l ∈ lines, keyOf l ≠ cstr "device") :
    registry_calls (x11hotplug_wakeup_handler F E sock prior).trace = []
    ∧ replies (x11hotplug_wakeup_handler F E sock prior).trace
        = [(encode lines).dropLast ++ cstr "result=no device"] := by
  obtain ⟨g, hg, hout⟩ := arrives_outcome F E sock prior lines h
  have hd : g.device = none := by
    rw [fold_init_device F lines g hg, lastValue_none _ _ hdev]
  have hfit : (encode lines ++ []).length < BUFSIZE := by simpa using h.fits
  rw [hout, outcome_registry, outcome_replies E sock prior lines [] g hfit,
    dispatch_no_device E g hd]
  exact ⟨rfl, by simp only [Option.getD_some]; rw [List.append_assoc, result_no_device]⟩

/-- The request `action=add` alone is rejected with `result=no device`. -/
theorem missing_device_rejected_witness :
    Arrives (envOk (encode [cstr "action=add"])) 3 [cstr "action=add"]
    ∧ (∀ l ∈ [cstr "action=add"], keyOf l ≠ cstr "device")
    ∧ registry_calls (x11hotplug_wakeup_handler xorgFlags
        (envOk (encode [cstr "action=add"])) 3 zeroMem).trace = []
    ∧ replies (x11hotplug_wakeup_handler xorgFlags
        (envOk (encode [cstr "action=add"])) 3 zeroMem).trace
        = [(encode [cstr "action=add"]).dropLast ++ cstr "result=no device"] :=
  ⟨arrives_envOk _ (by decide) (by decide) (by decide), by decide,
    missing_device_rejected xorgFlags (envOk (encode [cstr "action=add"])) 3 zeroMem
      [cstr "action=add"] (arrives_envOk _ (by decide) (by decide) (by decide))
      (by decide)⟩

set_option maxRecDepth 100000 in
/-- C2 fails on the code: the request `action=add`, `type` has no `device`
line; its line `type` has no `=`, so `value` is NULL and
`strcmp(value, "keyboard")` reads through it (the fault of C8).  The handler
stops there: no registry call has been made, and no reply is sent either, so
there is no `result=no device`. -/
theorem missing_device_with_bare_type_no_reply :
    (∀ l ∈ [cstr "action=add", cstr "type"], IsLine l ∧ keyOf l ≠ cstr "device")
    ∧ encode [cstr "action=add", cstr "type"] = cstr "action=add\ntype\n\n"
    ∧ (x11hotplug_wakeup_handler xorgFlags
        (envOk (encode [cstr "action=add", cstr "type"])) 3 zeroMem).fault
        = some Fault.nullDeref
    ∧ registry_calls (x11hotplug_wakeup_handler xorgFlags
        (envOk (encode [cstr "action=add", cstr "type"])) 3 zeroMem).trace = []
    ∧ replies (x11hotplug_wakeup_handler xorgFlags
        (envOk (encode [cstr "action=add", cstr "type"])) 3 zeroMem).trace = [] := by
  decide

/-- C3, as amended: for every request (text lines, received whole, none of
them the bare word `type`) whose last `device` line has a value and whose last
`action` line is `action=remove`, when `asprintf` succeeds, the only registry
call is `remove_devices`, and the one reply is the request without its
terminating empty line followed by `result=ok`; `remove_devices` returns
nothing, so the reply cannot depend on what it found.  Requests with a `type`
line without `=` are left out: on them the handler faults (C8). -/
theorem remove_replies_ok (F : AttrFlags) (E : Env) (sock : Int) (prior : Mem)
    (lines : List (List Nat)) (dev : List Nat) (h : Arrives E sock lines)
    (hdev : lastValue (cstr "device") lines = some dev)
    (hact : lastValue (cstr "action") lines = some (cstr "remove"))
    (hasp : E.asprintf_ok = true) :
    registry_calls (x11hotplug_wakeup_handler F E sock prior).trace
        = [Call.remove_devices BACKENDSTR (BACKENDSTR ++ cstr ":" ++ dev)]
    ∧ replies (x11hotplug_wakeup_handler F E sock prior).trace
        = [(encode lines).dropLast ++ cstr "result=ok"] := by
  obtain ⟨g, hg, hout⟩ := arrives_outcome F E sock prior lines h
  have hd : g.device = some dev := by rw [fold_init_device F lines g hg, hdev]
  have ha : g.hotplug_action = some (cstr "remove") := by
    rw [← hact]; exact fold_init_get F lines g .action hg
  have hfit : (encode lines ++ []).length < BUFSIZE := by simpa using h.fits
  rw [hout, outcome_registry, outcome_replies E sock prior lines [] g hfit,
    dispatch_remove E g dev hd hasp ha]
  exact ⟨rfl, by simp only [Option.getD_none]; rw [List.append_assoc, result_ok]⟩

/-- C3 as amended, on the request `device=/dev/input/event3`,
`action=remove`. -/
theorem remove_replies_ok_witness :
    Arrives (envOk (encode removeRequest)) 3 removeRequest
    ∧ lastValue (cstr "device") removeRequest = some (cstr "/dev/input/event3")
    ∧ lastValue (cstr "action") removeRequest = some (cstr "remove")
    ∧ (envOk (encode removeRequest)).asprintf_ok = true
    ∧ registry_calls (x11hotplug_wakeup_handler xorgFlags (envOk (encode removeRequest)) 3
          zeroMem).trace
        = [Call.remove_devices BACKENDSTR (BACKENDSTR ++ cstr ":" ++ cstr "/dev/input/event3")]
    ∧ replies (x11hotplug_wakeup_handler xorgFlags (envOk (encode removeRequest)) 3
          zeroMem).trace
        = [(encode removeRequest).dropLast ++ cstr "result=ok"] :=
  ⟨arrives_envOk removeRequest (by decide) (by decide) (by decide), by decide, by decide,
    rfl,
    remove_replies_ok xorgFlags (envOk (encode removeRequest)) 3 zeroMem removeRequest
      (cstr "/dev/input/event3")
      (arrives_envOk removeRequest (by decide) (by decide) (by decide))
      (by decide) (by decide) rfl⟩

set_option maxRecDepth 100000 in
/-- C3 as stated fails: the request `action=remove` without a `device` line is
answered `result=no device`, not `result=ok`. -/
theorem remove_without_device_not_ok :
    Arrives (envOk (encode [cstr "action=remove"])) 3 [cstr "action=remove"]
    ∧ lastValue (cstr "action") [cstr "action=remove"] = some (cstr "remove")
    ∧ replies (x11hotplug_wakeup_handler xorgFlags
        (envOk (encode [cstr "action=remove"])) 3 zeroMem).trace
        = [cstr "action=remove\nresult=no device"]
    ∧ ¬ cstr "result=ok" <:+ cstr "action=remove\nresult=no device" :=
  ⟨arrives_envOk _ (by decide) (by decide) (by decide), by decide, by decide, by decide⟩

/-- C4, as amended: for every request (text lines, received whole) in which
the value of the last `action` line is neither `add` nor `remove`, or is
absent, no registry call is made, whatever the other lines; and when none of
the lines is the bare word `type`, the last `device` line has a value and
`asprintf` succeeds, the one reply is the request without its terminating
empty line followed by `result=unsupported action` when the last `action` line
has a value and by `result=no action for event` when there is no `action` line
or the last one has no value.  What is replied on a request with a `type` line
without `=` is left out: on it the handler faults (C8). -/
theorem other_action_rejected (F : AttrFlags) (E : Env) (sock : Int) (prior : Mem)
    (lines : List (List Nat))
    (hres : 0 < E.result) (hsock : 0 ≤ sock) (hready : E.ready = true)
    (hdgram : E.dgram = some (encode lines)) (hfits : (encode lines).length < BUFSIZE)
    (htext : ∀ l ∈ lines, IsLine l)
    (hadd : lastValue (cstr "action") lines ≠ some (cstr "add"))
    (hrem : lastValue (cstr "action") lines ≠ some (cstr "remove")) :
    registry_calls (x11hotplug_wakeup_handler F E sock prior).trace = []
    ∧ (cstr "type" ∉ lines →
        ∀ dev, lastValue (cstr "device") lines = some dev → E.asprintf_ok = true →
          replies (x11hotplug_wakeup_handler F E sock prior).trace
            = [(encode lines).dropLast ++
                (if (lastValue (cstr "action") lines).isSome
                  then cstr "result=unsupported action"
                  else cstr "result=no action for event")]) := by
  have hfit : (encode lines ++ []).length < BUFSIZE := by simpa using hfits
  have hd0 : E.dgram = some (encode lines ++ []) := by simpa using hdgram
  cases hfold : fold_lines F lines Fields.init with
  | error e =>
    have hf := handler_request_fault F E sock prior lines [] e hres hsock hready hd0 hfit
      htext hfold
    refine ⟨by rw [hf.1]; rfl, ?_⟩
    intro htyped
    obtain ⟨g, hg⟩ := fold_lines_ok F lines Fields.init htyped
    rw [hfold] at hg
    cases hg
  | ok g =>
    have hout := handler_request F E sock prior lines [] g hres hsock hready hd0 hfit
      htext hfold
    have ha : g.hotplug_action = lastValue (cstr "action") lines :=
      fold_init_get F lines g .action hfold
    rw [hout, outcome_registry, outcome_replies E sock prior lines [] g hfit]
    refine ⟨?_, ?_⟩
    · rw [dispatch_quiet E g (ha ▸ hadd) (ha ▸ hrem)]; rfl
    · intro _ dev hdev hasp
      have hd : g.device = some dev := by rw [fold_init_device F lines g hfold, hdev]
      rw [dispatch_other E g dev hd hasp (ha ▸ hadd) (ha ▸ hrem), ha]
      simp only [Option.getD_some]
      rw [List.append_assoc]
      split_ifs
      · rw [result_unsupported]
      · rw [result_no_action]

/-- C4 as amended, on the request `action=bogus`,
`device=/dev/input/event3`. -/
theorem other_action_rejected_witness :
    Arrives (envOk (encode bogusRequest)) 3 bogusRequest
    ∧ lastValue (cstr "action") bogusRequest ≠ some (cstr "add")
    ∧ lastValue (cstr "action") bogusRequest ≠ some (cstr "remove")
    ∧ lastValue (cstr "device") bogusRequest = some (cstr "/dev/input/event3")
    ∧ registry_calls (x11hotplug_wakeup_handler xorgFlags (envOk (encode bogusRequest)) 3
        zeroMem).trace = []
    ∧ (cstr "type" ∉ bogusRequest →
        ∀ dev, lastValue (cstr "device") bogusRequest = some dev →
          (envOk (encode bogusRequest)).asprintf_ok = true →
          replies (x11hotplug_wakeup_handler xorgFlags (envOk (encode bogusRequest)) 3
              zeroMem).trace
            = [(encode bogusRequest).dropLast ++
                (if (lastValue (cstr "action") bogusRequest).isSome
                  then cstr "result=unsupported action"
                  else cstr "result=no action for event")]) :=
  ⟨arrives_envOk bogusRequest (by decide) (by decide) (by decide), by decide, by decide,
    by decide,
    other_action_rejected xorgFlags (envOk (encode bogusRequest)) 3 zeroMem bogusRequest
      Int.one_pos (by decide) rfl rfl (by decide) (by decide) (by decide) (by decide)⟩

set_option maxRecDepth 100000 in
/-- C4 as stated fails: the request `action=bogus` without a `device` line is
answered `result=no device`, not `result=unsupported action`. -/
theorem bogus_without_device_no_device :
    Arrives (envOk (encode [cstr "action=bogus"])) 3 [cstr "action=bogus"]
    ∧ lastValue (cstr "action") [cstr "action=bogus"] = some (cstr "bogus")
    ∧ replies (x11hotplug_wakeup_handler xorgFlags
        (envOk (encode [cstr "action=bogus"])) 3 zeroMem).trace
        = [cstr "action=bogus\nresult=no device"]
    ∧ ¬ cstr "result=unsupported action" <:+ cstr "action=bogus\nresult=no device" :=
  ⟨arrives_envOk _ (by decide) (by decide) (by decide), by decide, by decide, by decide⟩

/-- C5, as amended: for every request (text lines, received whole, none of
them the bare word `type`) the one reply is the request without its
terminating empty line (so up to and including the newline that ends the last
line) followed by `result=` and the reason; the newline in front of `result=`
is the one `sprintf` writes in place of the erased newline of the last line.
Requests with a `type` line without `=` are left out: on them the handler
faults and sends no reply (C8). -/
theorem reply_echoes_request (F : AttrFlags) (E : Env) (sock : Int) (prior : Mem)
    (lines : List (List Nat)) (h : Arrives E sock lines) :
    ∃ failure, (x11hotplug_wakeup_handler F E sock prior).failure = some failure
      ∧ replies (x11hotplug_wakeup_handler F E sock prior).trace
          = [(encode lines).dropLast ++ cstr "result=" ++ failure.getD (cstr "ok")] := by
  obtain ⟨g, _, hout⟩ := arrives_outcome F E sock prior lines h
  have hfit : (encode lines ++ []).length < BUFSIZE := by simpa using h.fits
  rw [hout, outcome_replies E sock prior lines [] g hfit]
  exact ⟨(dispatch E g).2.1, rfl, rfl⟩

/-- C5 as amended, on the request `a=b`. -/
theorem reply_echoes_request_witness :
    Arrives (envOk (encode [cstr "a=b"])) 3 [cstr "a=b"]
    ∧ ∃ failure, (x11hotplug_wakeup_handler xorgFlags (envOk (encode [cstr "a=b"])) 3
          zeroMem).failure = some failure
      ∧ replies (x11hotplug_wakeup_handler xorgFlags (envOk (encode [cstr "a=b"])) 3
          zeroMem).trace
          = [(encode [cstr "a=b"]).dropLast ++ cstr "result=" ++ failure.getD (cstr "ok")] :=
  ⟨arrives_envOk _ (by decide) (by decide) (by decide),
    reply_echoes_request xorgFlags (envOk (encode [cstr "a=b"])) 3 zeroMem [cstr "a=b"]
      (arrives_envOk _ (by decide) (by decide) (by decide))⟩

set_option maxRecDepth 100000 in
/-- C5 as stated fails: for the request `a=b` the reply is `a=b`, a newline,
`result=no device`; it is not the request up to and including the newline of
its last line followed by a newline and `result=` with any reason. -/
theorem reply_has_one_newline :
    Arrives (envOk (encode [cstr "a=b"])) 3 [cstr "a=b"]
    ∧ replies (x11hotplug_wakeup_handler xorgFlags (envOk (encode [cstr "a=b"])) 3
        zeroMem).trace = [cstr "a=b\nresult=no device"]
    ∧ ¬ ∃ reason, cstr "a=b\nresult=no device"
          = (encode [cstr "a=b"]).dropLast ++ cstr "\nresult=" ++ reason := by
  refine ⟨arrives_envOk _ (by decide) (by decide) (by decide), by decide, ?_⟩
  rintro ⟨reason, hr⟩
  have h5 := congrArg (fun l => l.take 5) hr
  have e : (encode [cstr "a=b"]).dropLast ++ cstr "\nresult=" ++ reason
      = cstr "a=b\n\n" ++ (cstr "result=" ++ reason) := by
    have : (encode [cstr "a=b"]).dropLast ++ cstr "\nresult="
        = cstr "a=b\n\n" ++ cstr "result=" := by decide
    rw [this, List.append_assoc]
  rw [e] at h5
  have e2 : (cstr "a=b\n\n" ++ (cstr "result=" ++ reason)).take 5 = cstr "a=b\n\n" :=
    List.take_left' (by decide)
  simp only [e2] at h5
  revert h5
  decide

/-- C6: for every request that carries a `device` value, when `asprintf`
succeeds (so that the dispatch on the action is reached), the option list at
dispatch is the seeded `_source` pair, then for every line in order the pair
of its text before the first `=` and its text after it, then the pair
`config_info` = `x11hotplug:` and the device id; the attributes hold the
device and the union of the recognized `type` tags; and on `add` this list and
these attributes are the arguments of `NewInputDeviceRequest`. -/
theorem options_at_dispatch (F : AttrFlags) (E : Env) (sock : Int) (prior : Mem)
    (lines : List (List Nat)) (dev : List Nat) (h : Arrives E sock lines)
    (hdev : lastValue (cstr "device") lines = some dev)
    (hasp : E.asprintf_ok = true) :
    ∃ f, (x11hotplug_wakeup_handler F E sock prior).fields = some f
      ∧ f.options = (cstr "_source", some (cstr "server/x11hotplug")) :: lines.map pair
          ++ [(cstr "config_info", some (cstr "x11hotplug:" ++ dev))]
      ∧ f.attrs.device = some dev
      ∧ f.attrs.flags = (tags F lines).foldl (fun a b => a ||| b) 0
      ∧ (lastValue (cstr "action") lines = some (cstr "add") →
          Call.NewInputDeviceRequest f.options f.attrs
            ∈ (x11hotplug_wakeup_handler F E sock prior).trace) := by
  obtain ⟨g, hg, hout⟩ := arrives_outcome F E sock prior lines h
  have hd : g.device = some dev := by rw [fold_init_device F lines g hg, hdev]
  have hopt := fold_lines_options F lines _ g hg
  have hseed : Fields.init.options = [(cstr "_source", some (cstr "server/x11hotplug"))] := by
    decide
  have hcfg : BACKENDSTR ++ cstr ":" = cstr "x11hotplug:" := by decide
  rw [hout]
  refine ⟨{ g with options := (dispatch E g).1 }, rfl, ?_, ?_, ?_, ?_⟩
  · show (dispatch E g).1 = _
    rw [dispatch_options E g dev hd hasp, hopt, hseed, hcfg]
    simp
  · show g.attrs.device = some dev
    rw [← hdev]; exact fold_init_get F lines g .device hg
  · show g.attrs.flags = _
    exact fold_lines_flags F lines _ g hg
  · intro hact
    have ha : g.hotplug_action = some (cstr "add") := by
      rw [← hact]; exact fold_init_get F lines g .action hg
    show Call.NewInputDeviceRequest (dispatch E g).1 g.attrs
      ∈ (request_outcome E sock prior (encode lines ++ []) lines g).trace
    simp only [request_outcome]
    rw [dispatch_add E g dev hd hasp ha]
    split_ifs <;> simp

/-- C6, on the request `action=add`, `device=/dev/input/event3`,
`type=keyboard`: the keys are `_source`, `action`, `device`, `type`,
`config_info`, and the flags are the keyboard tag. -/
theorem options_at_dispatch_witness :
    Arrives (envOk (encode addRequest)) 3 addRequest
    ∧ lastValue (cstr "device") addRequest = some (cstr "/dev/input/event3")
    ∧ (envOk (encode addRequest)).asprintf_ok = true
    ∧ (cstr "_source", some (cstr "server/x11hotplug")) :: addRequest.map pair
          ++ [(cstr "config_info", some (cstr "x11hotplug:" ++ cstr "/dev/input/event3"))]
        = [(cstr "_source", some (cstr "server/x11hotplug")),
           (cstr "action", some (cstr "add")),
           (cstr "device", some (cstr "/dev/input/event3")),
           (cstr "type", some (cstr "keyboard")),
           (cstr "config_info", some (cstr "x11hotplug:/dev/input/event3"))]
    ∧ (tags xorgFlags addRequest).foldl (fun a b => a ||| b) 0 = xorgFlags.ATTR_KEYBOARD
    ∧ ∃ f, (x11hotplug_wakeup_handler xorgFlags (envOk (encode addRequest)) 3
          zeroMem).fields = some f
      ∧ f.options = (cstr "_source", some (cstr "server/x11hotplug")) :: addRequest.map pair
          ++ [(cstr "config_info", some (cstr "x11hotplug:" ++ cstr "/dev/input/event3"))]
      ∧ f.attrs.device = some (cstr "/dev/input/event3")
      ∧ f.attrs.flags = (tags xorgFlags addRequest).foldl (fun a b => a ||| b) 0
      ∧ (lastValue (cstr "action") addRequest = some (cstr "add") →
          Call.NewInputDeviceRequest f.options f.attrs
            ∈ (x11hotplug_wakeup_handler xorgFlags (envOk (encode addRequest)) 3
                zeroMem).trace) :=
  ⟨arrives_envOk addRequest (by decide) (by decide) (by decide), by decide, rfl,
    by decide, by decide,
    options_at_dispatch xorgFlags (envOk (encode addRequest)) 3 zeroMem addRequest
      (cstr "/dev/input/event3")
      (arrives_envOk addRequest (by decide) (by decide) (by decide)) (by decide) rfl⟩

/-- C7: for every request the handler parses without fault, and the flags of
the parsed attributes are the bitwise OR of the capability tags of the `type`
lines whose value is one of keyboard, pointer, joystick, tablet, touchscreen,
touchpad, taken in line order from 0; a `type` line with another value adds
nothing. -/
theorem flags_are_union_of_types (F : AttrFlags) (E : Env) (sock : Int) (prior : Mem)
    (lines : List (List Nat)) (h : Arrives E sock lines) :
    (x11hotplug_wakeup_handler F E sock prior).fault = none
    ∧ ∃ f, (x11hotplug_wakeup_handler F E sock prior).fields = some f
      ∧ f.attrs.flags = (tags F lines).foldl (fun a b => a ||| b) 0 := by
  obtain ⟨g, hg, hout⟩ := arrives_outcome F E sock prior lines h
  rw [hout]
  exact ⟨rfl, { g with options := (dispatch E g).1 }, rfl, fold_lines_flags F lines _ g hg⟩

/-- C7, on the request `type=keyboard`, `type=mouse`, `type=pointer`: the
flags are the keyboard and pointer tags. -/
theorem flags_are_union_of_types_witness :
    Arrives (envOk (encode typesRequest)) 3 typesRequest
    ∧ (tags xorgFlags typesRequest).foldl (fun a b => a ||| b) 0
        = xorgFlags.ATTR_KEYBOARD ||| xorgFlags.ATTR_POINTER
    ∧ (x11hotplug_wakeup_handler xorgFlags (envOk (encode typesRequest)) 3 zeroMem).fault
        = none
    ∧ ∃ f, (x11hotplug_wakeup_handler xorgFlags (envOk (encode typesRequest)) 3
          zeroMem).fields = some f
      ∧ f.attrs.flags = (tags xorgFlags typesRequest).foldl (fun a b => a ||| b) 0 :=
  ⟨arrives_envOk typesRequest (by decide) (by decide) (by decide), by decide,
    flags_are_union_of_types xorgFlags (envOk (encode typesRequest)) 3 zeroMem typesRequest
      (arrives_envOk typesRequest (by decide) (by decide) (by decide))⟩

set_option maxRecDepth 100000 in
/-- C8 fails on the code: for the datagram `type`, newline, newline, the line
`type` has no `=`, `value` is NULL, and `strcmp(value, "keyboard")` reads
through it; the handler stops there and sends no reply. -/
theorem bare_type_line_faults :
    (x11hotplug_wakeup_handler xorgFlags (envOk (cstr "type\n\n")) 3 zeroMem).fault
        = some Fault.nullDeref
    ∧ (x11hotplug_wakeup_handler xorgFlags (envOk (cstr "type\n\n")) 3 zeroMem).trace = [] := by
  decide

set_option maxRecDepth 100000 in
/-- C9 fails on the code: for the datagram `a=b` (no newline at its end),
`strchr` finds no line end, `key = lineend+1` is `NULL + 1`, and the
`sprintf(key, ...)` at `done:` writes through it; the handler stops there and
no `sendto` is made. -/
theorem unterminated_line_faults :
    (x11hotplug_wakeup_handler xorgFlags (envOk (cstr "a=b")) 3 zeroMem).fault
        = some Fault.badPointer
    ∧ replies (x11hotplug_wakeup_handler xorgFlags (envOk (cstr "a=b")) 3 zeroMem).trace
        = [] := by
  decide

/-- C10: for every request and every typed key (`action`, `device`, `vendor`,
`product`, `pnp_id`, `usb_id`), every line is forwarded to the option list, in
line order and after the seeded pair, whether or not its key occurred before;
the typed field holds the value of the last line with that key; and the device
id holds the value of the last `device` line. -/
theorem duplicate_keys_last_wins (F : AttrFlags) (E : Env) (sock : Int) (prior : Mem)
    (K : TypedKey) (pre post : List (List Nat)) (l : List Nat)
    (h : Arrives E sock (pre ++ l :: post))
    (hl : keyOf l = K.name) (hpost : ∀ x ∈ post, keyOf x ≠ K.name) :
    ∃ f, (x11hotplug_wakeup_handler F E sock prior).fields = some f
      ∧ (cstr "_source", some (cstr "server/x11hotplug")) :: (pre ++ l :: post).map pair
          <+: f.options
      ∧ K.get f = valueOf l
      ∧ (K = .device → f.device = valueOf l) := by
  obtain ⟨g, hg, hout⟩ := arrives_outcome F E sock prior _ h
  have hopt := fold_lines_options F _ _ g hg
  have hseed : Fields.init.options = [(cstr "_source", some (cstr "server/x11hotplug"))] := by
    decide
  rw [hout]
  refine ⟨{ g with options := (dispatch E g).1 }, rfl, ?_, ?_, ?_⟩
  · have := dispatch_keeps_options E g
    rw [hopt, hseed] at this
    exact this
  · have hK : K.get g = valueOf l := by
      rw [fold_init_get F _ g K hg, lastValue_last K.name pre post l hl hpost]
    rw [← hK]
    cases K <;> rfl
  · intro hK
    subst hK
    show g.device = valueOf l
    rw [fold_init_device F _ g hg]
    exact lastValue_last _ pre post l hl hpost

/-- C10, on the request `device=/dev/a`, `action=add`, `device=/dev/b`. -/
theorem duplicate_keys_last_wins_witness :
    Arrives (envOk (encode twiceRequest)) 3
        ([cstr "device=/dev/a", cstr "action=add"] ++ cstr "device=/dev/b" :: [])
    ∧ keyOf (cstr "device=/dev/b") = TypedKey.device.name
    ∧ (∀ x ∈ ([] : List (List Nat)), keyOf x ≠ TypedKey.device.name)
    ∧ valueOf (cstr "device=/dev/b") = some (cstr "/dev/b")
    ∧ ∃ f, (x11hotplug_wakeup_handler xorgFlags (envOk (encode twiceRequest)) 3
          zeroMem).fields = some f
      ∧ (cstr "_source", some (cstr "server/x11hotplug"))
            :: ([cstr "device=/dev/a", cstr "action=add"] ++ cstr "device=/dev/b" :: []).map pair
          <+: f.options
      ∧ TypedKey.device.get f = valueOf (cstr "device=/dev/b")
      ∧ (TypedKey.device = .device → f.device = valueOf (cstr "device=/dev/b")) :=
  ⟨arrives_envOk twiceRequest (by decide) (by decide) (by decide), by decide, by decide,
    by decide,
    duplicate_keys_last_wins xorgFlags (envOk (encode twiceRequest)) 3 zeroMem .device
      [cstr "device=/dev/a", cstr "action=add"] [] (cstr "device=/dev/b")
      (arrives_envOk twiceRequest (by decide) (by decide) (by decide))
      (by decide) (by decide)⟩

/-! ## The claims on the socket -/

theorem handler_gate_closed (F : AttrFlags) (E : Env) (sock : Int) (prior : Mem)
    (h : E.result ≤ 0 ∨ sock < 0 ∨ E.ready = false) :
    x11hotplug_wakeup_handler F E sock prior = ⟨[], none, prior, [], none, none⟩ := by
  unfold x11hotplug_wakeup_handler
  rw [if_pos h]

theorem handler_nothing_read (F : AttrFlags) (E : Env) (sock : Int) (prior : Mem)
    (hg : ¬ (E.result ≤ 0 ∨ sock < 0 ∨ E.ready = false))
    (h : E.dgram = none ∨ E.dgram = some []) :
    x11hotplug_wakeup_handler F E sock prior
      = ⟨[], none, (recvfrom prior E.dgram).2, [], none, none⟩ := by
  unfold x11hotplug_wakeup_handler
  rw [if_neg hg]
  rcases h with h | h <;> rw [h] <;> simp [recvfrom]

theorem recvfrom_nothing (prior : Mem) (d : Option (List Nat))
    (h : d = none ∨ d = some []) : (recvfrom prior d).2 = prior := by
  rcases h with h | h <;> subst h
  · rfl
  · funext j
    simp [recvfrom]

/-- C11: when the wakeup handler is called with `result <= 0`, or with
`sock < 0`, or with the socket not set in the read mask, or when `recvfrom`
fails or returns length 0, the handler makes no call at all (so no registry
call and no `sendto`), stores nothing into `buf`, leaves the memory as it was
and ends without fault; the socket state after the call is the state
before. -/
theorem non_event_is_silent (F : AttrFlags) (E : Env) (h : Host) (prior : Mem)
    (hnon : E.result ≤ 0 ∨ h.sock < 0 ∨ h.read_mask h.sock = false
      ∨ E.dgram = none ∨ E.dgram = some []) :
    (wakeup F E h prior).1 = h
    ∧ (wakeup F E h prior).2.trace = []
    ∧ registry_calls (wakeup F E h prior).2.trace = []
    ∧ replies (wakeup F E h prior).2.trace = []
    ∧ (wakeup F E h prior).2.writes = []
    ∧ (wakeup F E h prior).2.mem = prior
    ∧ (wakeup F E h prior).2.fault = none := by
  have key : (wakeup F E h prior).2 = ⟨[], none, prior, [], none, none⟩ := by
    show x11hotplug_wakeup_handler F _ h.sock prior = _
    by_cases hg : E.result ≤ 0 ∨ h.sock < 0 ∨ h.read_mask h.sock = false
    · exact handler_gate_closed F { E with ready := h.read_mask h.sock } h.sock prior hg
    · have hd : E.dgram = none ∨ E.dgram = some [] := by
        rcases hnon with h1 | h1 | h1 | h1 | h1
        · exact absurd (Or.inl h1) hg
        · exact absurd (Or.inr (Or.inl h1)) hg
        · exact absurd (Or.inr (Or.inr h1)) hg
        · exact Or.inl h1
        · exact Or.inr h1
      refine (handler_nothing_read F { E with ready := h.read_mask h.sock } h.sock prior
        hg hd).trans ?_
      show Outcome.mk [] none (recvfrom prior E.dgram).2 [] none none = _
      rw [recvfrom_nothing prior E.dgram hd]
  rw [key]
  exact ⟨rfl, rfl, rfl, rfl, rfl, rfl, rfl⟩

/-- C11, on a call with `result = 0` for an open, readable socket with a
request waiting. -/
theorem non_event_is_silent_witness :
    ((⟨0, true, some (encode addRequest), true, fun _ _ => Success, 0⟩ : Env).result ≤ 0
      ∨ (⟨3, fun _ => true, fun _ => true, true, fun _ => true⟩ : Host).sock < 0
      ∨ (⟨3, fun _ => true, fun _ => true, true, fun _ => true⟩ : Host).read_mask
          (⟨3, fun _ => true, fun _ => true, true, fun _ => true⟩ : Host).sock = false
      ∨ (⟨0, true, some (encode addRequest), true, fun _ _ => Success, 0⟩ : Env).dgram = none
      ∨ (⟨0, true, some (encode addRequest), true, fun _ _ => Success, 0⟩ : Env).dgram
          = some [])
    ∧ (wakeup xorgFlags ⟨0, true, some (encode addRequest), true, fun _ _ => Success, 0⟩
        ⟨3, fun _ => true, fun _ => true, true, fun _ => true⟩ zeroMem).2.trace = [] :=
  ⟨Or.inl (by decide),
    (non_event_is_silent xorgFlags
      ⟨0, true, some (encode addRequest), true, fun _ _ => Success, 0⟩
      ⟨3, fun _ => true, fun _ => true, true, fun _ => true⟩ zeroMem
      (Or.inl (by decide))).2.1⟩

/-- C12: the first call of the block handler with an open socket that is not
in the read mask calls `AddGeneralSocket(sock)` once, registers the socket and
sets it in the read mask; a call on the state any call leaves changes nothing
and makes no call; and with no open socket a call changes nothing and makes no
call. -/
theorem block_handler_idempotent (h : Host) :
    (0 ≤ h.sock → h.read_mask h.sock = false →
      (x11hotplug_block_handler h).2 = [HostCall.AddGeneralSocket h.sock]
      ∧ (x11hotplug_block_handler h).1.sock = h.sock
      ∧ (x11hotplug_block_handler h).1.read_mask h.sock = true
      ∧ (x11hotplug_block_handler h).1.general h.sock = true)
    ∧ x11hotplug_block_handler (x11hotplug_block_handler h).1
        = ((x11hotplug_block_handler h).1, [])
    ∧ (h.sock < 0 → x11hotplug_block_handler h = (h, [])) := by
  refine ⟨?_, ?_, ?_⟩
  · intro h0 hm
    have hc : 0 ≤ h.sock ∧ h.read_mask h.sock = false := ⟨h0, hm⟩
    simp [x11hotplug_block_handler, hc, FD_SET, AddGeneralSocket]
  · by_cases hc : 0 ≤ h.sock ∧ h.read_mask h.sock = false
    · have h1 : x11hotplug_block_handler h
          = ({ h with general := AddGeneralSocket h.sock h.general,
                      read_mask := FD_SET h.sock h.read_mask },
              [HostCall.AddGeneralSocket h.sock]) := by
        simp [x11hotplug_block_handler, hc]
      rw [h1]
      simp [x11hotplug_block_handler, FD_SET]
    · have h1 : x11hotplug_block_handler h = (h, []) := by
        unfold x11hotplug_block_handler
        rw [if_neg hc]
      rw [h1]
      exact h1
  · intro hneg
    have hc : ¬ (0 ≤ h.sock ∧ h.read_mask h.sock = false) := by
      intro hc; omega
    unfold x11hotplug_block_handler
    rw [if_neg hc]

/-- C12, on the state right after a successful init with descriptor 3. -/
theorem block_handler_idempotent_witness :
    (x11hotplug_block_handler ⟨3, fun _ => false, fun _ => false, true,
        fun j => decide (j = 3)⟩).2 = [HostCall.AddGeneralSocket 3]
    ∧ (x11hotplug_block_handler (x11hotplug_block_handler ⟨3, fun _ => false,
        fun _ => false, true, fun j => decide (j = 3)⟩).1).2 = [] :=
  ⟨((block_handler_idempotent ⟨3, fun _ => false, fun _ => false, true,
        fun j => decide (j = 3)⟩).1 (by decide) rfl).1,
    congrArg Prod.snd (block_handler_idempotent ⟨3, fun _ => false, fun _ => false, true,
        fun j => decide (j = 3)⟩).2.1⟩

/-- C13: `config_x11hotplug_fini` on an open socket calls
`RemoveGeneralSocket`, `RemoveBlockAndWakeupHandlers` and `close` on it, once
each and in this order, and leaves `sock` at -1, the socket unregistered and
closed; called with `sock` negative it changes nothing and makes no call; so
a second fini right after a fini changes nothing and makes no call. -/
theorem fini_closes_once (h : Host) :
    (0 ≤ h.sock →
      (config_x11hotplug_fini h).2
        = [HostCall.RemoveGeneralSocket h.sock, HostCall.RemoveBlockAndWakeupHandlers,
           HostCall.close h.sock]
      ∧ (config_x11hotplug_fini h).1.sock = -1
      ∧ (config_x11hotplug_fini h).1.general h.sock = false
      ∧ (config_x11hotplug_fini h).1.handlers = false
      ∧ (config_x11hotplug_fini h).1.opened h.sock = false)
    ∧ (h.sock < 0 → config_x11hotplug_fini h = (h, []))
    ∧ config_x11hotplug_fini (config_x11hotplug_fini h).1
        = ((config_x11hotplug_fini h).1, []) := by
  refine ⟨?_, ?_, ?_⟩
  · intro h0
    have hc : ¬ h.sock < 0 := by omega
    simp [config_x11hotplug_fini, hc, FD_CLR, RemoveGeneralSocket]
  · intro hneg
    unfold config_x11hotplug_fini
    rw [if_pos hneg]
  · by_cases hc : h.sock < 0
    · have h1 : config_x11hotplug_fini h = (h, []) := by
        unfold config_x11hotplug_fini
        rw [if_pos hc]
      rw [h1]
      exact h1
    · have h1 : config_x11hotplug_fini h
          = ({ h with general := RemoveGeneralSocket h.sock h.general, handlers := false,
                      opened := FD_CLR h.sock h.opened, sock := -1 },
              [HostCall.RemoveGeneralSocket h.sock, HostCall.RemoveBlockAndWakeupHandlers,
               HostCall.close h.sock]) := by
        unfold config_x11hotplug_fini
        rw [if_neg hc]
      rw [h1]
      simp [config_x11hotplug_fini]

/-- C13, on a registered open socket with descriptor 3. -/
theorem fini_closes_once_witness :
    (config_x11hotplug_fini ⟨3, fun j => decide (j = 3), fun j => decide (j = 3), true,
        fun j => decide (j = 3)⟩).2
      = [HostCall.RemoveGeneralSocket 3, HostCall.RemoveBlockAndWakeupHandlers,
         HostCall.close 3]
    ∧ (config_x11hotplug_fini (config_x11hotplug_fini ⟨3, fun j => decide (j = 3),
        fun j => decide (j = 3), true, fun j => decide (j = 3)⟩).1).2 = [] :=
  ⟨((fini_closes_once ⟨3, fun j => decide (j = 3), fun j => decide (j = 3), true,
        fun j => decide (j = 3)⟩).1 (by decide)).1,
    congrArg Prod.snd (fini_closes_once ⟨3, fun j => decide (j = 3),
        fun j => decide (j = 3), true, fun j => decide (j = 3)⟩).2.2⟩

/-- C20 fails on the code: an init in which `socket()` returns descriptor 3
and `bind()` fails returns 0 after `close(sock)` but leaves `sock` at 3, a
descriptor that is closed; the fini that follows does not return early and
calls `close(3)` again. -/
theorem failed_bind_leaves_stale_sock :
    (config_x11hotplug_init ⟨cstr "0", 3, -1⟩ Host.start).1 = 0
    ∧ (config_x11hotplug_init ⟨cstr "0", 3, -1⟩ Host.start).2.1.sock = 3
    ∧ (config_x11hotplug_init ⟨cstr "0", 3, -1⟩ Host.start).2.1.opened 3 = false
    ∧ HostCall.close 3 ∈ (config_x11hotplug_init ⟨cstr "0", 3, -1⟩ Host.start).2.2
    ∧ HostCall.close 3
        ∈ (config_x11hotplug_fini
            (config_x11hotplug_init ⟨cstr "0", 3, -1⟩ Host.start).2.1).2 := by
  decide

/-! ## The claims on the reply and on the buffer -/

theorem outcome_trace (E : Env) (sock : Int) (prior : Mem)
    (lines : List (List Nat)) (T : List Nat) (g : Fields)
    (hlen : (encode lines ++ T).length < BUFSIZE) :
    (request_outcome E sock prior (encode lines ++ T) lines g).trace
      = (dispatch E g).2.2
        ++ [Call.sendto sock
            ((encode lines).dropLast ++ cstr "result=" ++ (dispatch E g).2.1.getD (cstr "ok"))]
        ++ (if E.sendto < 0 then [Call.ErrorF (LOGPREFIX ++ cstr "sendto failed\n")] else [])
        ++ cleanup g (dispatch E g).1 (dispatch E g).2.1 := by
  simp only [request_outcome]
  rw [payload_request prior lines T g _ hlen]

theorem dropLast_as_take (lines : List (List Nat)) (h : lines ≠ []) :
    (encode lines).dropLast = (encode lines).take ((encode lines).length - 2) ++ [NL]
    ∧ (encode lines).get? ((encode lines).length - 2) = some NL := by
  obtain ⟨A, hA⟩ := encode_two lines h
  rw [hA]
  have e : A ++ [NL, NL] = (A ++ [NL]) ++ [NL] := by simp
  refine ⟨?_, ?_⟩
  · rw [e, List.dropLast_concat]
    simp
  · have hl : (A ++ [NL, NL]).length - 2 = A.length := by simp
    rw [hl, List.get?_eq_getElem?, List.getElem?_append_right (le_refl _)]
    simp

theorem cstr_nl_result : [NL] ++ cstr "result=" = cstr "\nresult=" := by decide

/-- What holds of a request of one or more lines when none of them is the bare
word `type`: the one reply is exactly the request bytes before the newline
that ends the last line, then `\nresult=`, then the reason (`ok` when
`failure` is NULL); the byte of the request at that position is the newline,
and the length sent is that position plus 8 plus the length of the reason, so
no terminating NUL is sent. -/
theorem reply_is_exact (F : AttrFlags) (E : Env) (sock : Int) (prior : Mem)
    (lines : List (List Nat)) (h : Arrives E sock lines) (hne : lines ≠ []) :
    ∃ failure reply,
      (x11hotplug_wakeup_handler F E sock prior).failure = some failure
      ∧ replies (x11hotplug_wakeup_handler F E sock prior).trace = [reply]
      ∧ reply = (encode lines).take ((encode lines).length - 2) ++ cstr "\nresult="
          ++ failure.getD (cstr "ok")
      ∧ (encode lines).get? ((encode lines).length - 2) = some NL
      ∧ reply.length = (encode lines).length - 2 + 8 + (failure.getD (cstr "ok")).length := by
  obtain ⟨g, _, hout⟩ := arrives_outcome F E sock prior lines h
  have hfit : (encode lines ++ []).length < BUFSIZE := by simpa using h.fits
  obtain ⟨hdrop, hget⟩ := dropLast_as_take lines hne
  have h2 : 2 ≤ (encode lines).length := by
    obtain ⟨A, hA⟩ := encode_two lines hne
    rw [hA]; simp
  have hreply : (encode lines).dropLast ++ cstr "result=" ++ (dispatch E g).2.1.getD (cstr "ok")
      = (encode lines).take ((encode lines).length - 2) ++ cstr "\nresult="
          ++ (dispatch E g).2.1.getD (cstr "ok") := by
    rw [hdrop, List.append_assoc _ [NL], cstr_nl_result]
  rw [hout, outcome_replies E sock prior lines [] g hfit, hreply]
  refine ⟨(dispatch E g).2.1, _, rfl, rfl, rfl, hget, ?_⟩
  have h8 : (cstr "\nresult=").length = 8 := by decide
  simp only [List.length_append, List.length_take, h8]
  omega

/-- The exact reply to the request `action=add`, `device=/dev/input/event3`,
`type=keyboard`. -/
theorem reply_is_exact_witness :
    Arrives (envOk (encode addRequest)) 3 addRequest
    ∧ addRequest ≠ []
    ∧ ∃ failure reply,
      (x11hotplug_wakeup_handler xorgFlags (envOk (encode addRequest)) 3 zeroMem).failure
        = some failure
      ∧ replies (x11hotplug_wakeup_handler xorgFlags (envOk (encode addRequest)) 3
          zeroMem).trace = [reply]
      ∧ reply = (encode addRequest).take ((encode addRequest).length - 2) ++ cstr "\nresult="
          ++ failure.getD (cstr "ok")
      ∧ (encode addRequest).get? ((encode addRequest).length - 2) = some NL
      ∧ reply.length
          = (encode addRequest).length - 2 + 8 + (failure.getD (cstr "ok")).length :=
  ⟨arrives_envOk addRequest (by decide) (by decide) (by decide), by decide,
    reply_is_exact xorgFlags (envOk (encode addRequest)) 3 zeroMem addRequest
      (arrives_envOk addRequest (by decide) (by decide) (by decide)) (by decide)⟩

set_option maxRecDepth 100000 in
/-- C14 fails on the code: the request `device=/dev/input/event3`, `type` is
made of two non-empty newline-terminated lines and the empty line; its line
`type` has no `=`, so `value` is NULL and `strcmp(value, "keyboard")` reads
through it (the fault of C8).  The handler stops there and sends nothing, so
no reply of length p + 8 + len(reason) exists. -/
theorem request_with_bare_type_sends_nothing :
    (∀ l ∈ [cstr "device=/dev/input/event3", cstr "type"], IsLine l)
    ∧ encode [cstr "device=/dev/input/event3", cstr "type"]
        = cstr "device=/dev/input/event3\ntype\n\n"
    ∧ (x11hotplug_wakeup_handler xorgFlags
        (envOk (encode [cstr "device=/dev/input/event3", cstr "type"])) 3 zeroMem).fault
        = some Fault.nullDeref
    ∧ (x11hotplug_wakeup_handler xorgFlags
        (envOk (encode [cstr "device=/dev/input/event3", cstr "type"])) 3 zeroMem).trace
        = [] := by
  decide

/-- C16: when the datagram is a request followed by any bytes `T` after its
empty line, the handler makes the same calls with the same arguments (registry
calls, the reply, the releases), ends with the same typed fields (attributes,
action, device id, option list) and the same `failure`, and faults as little,
as when the datagram is the request alone. -/
theorem bytes_after_empty_line_ignored (F : AttrFlags) (E : Env) (sock : Int)
    (prior : Mem) (lines : List (List Nat)) (T : List Nat)
    (hres : 0 < E.result) (hsock : 0 ≤ sock) (hready : E.ready = true)
    (hd : E.dgram = some (encode lines ++ T))
    (hfit : (encode lines ++ T).length < BUFSIZE)
    (htext : ∀ l ∈ lines, IsLine l) (htyped : cstr "type" ∉ lines) :
    (x11hotplug_wakeup_handler F E sock prior).trace
        = (x11hotplug_wakeup_handler F { E with dgram := some (encode lines) } sock
            prior).trace
    ∧ (x11hotplug_wakeup_handler F E sock prior).fields
        = (x11hotplug_wakeup_handler F { E with dgram := some (encode lines) } sock
            prior).fields
    ∧ (x11hotplug_wakeup_handler F E sock prior).failure
        = (x11hotplug_wakeup_handler F { E with dgram := some (encode lines) } sock
            prior).failure
    ∧ (x11hotplug_wakeup_handler F E sock prior).fault = none
    ∧ (x11hotplug_wakeup_handler F { E with dgram := some (encode lines) } sock
            prior).fault = none := by
  obtain ⟨g, hg⟩ := fold_lines_ok F lines Fields.init htyped
  have hfit0 : (encode lines ++ []).length < BUFSIZE := by
    simp only [List.length_append] at hfit ⊢
    simp only [List.length_nil]
    omega
  have h1 := handler_request F E sock prior lines T g hres hsock hready hd hfit htext hg
  have h2 := handler_request F { E with dgram := some (encode lines) } sock prior lines []
    g hres hsock hready (by simp) hfit0 htext hg
  rw [h1, h2, outcome_trace E sock prior lines T g hfit,
    outcome_trace _ sock prior lines [] g hfit0]
  exact ⟨rfl, rfl, rfl, rfl, rfl⟩

/-- C16, on the request `action=add`, `device=/dev/input/event3`,
`type=keyboard` followed by the bytes `device=/dev/x`, newline. -/
theorem bytes_after_empty_line_ignored_witness :
    (x11hotplug_wakeup_handler xorgFlags
        (envOk (encode addRequest ++ cstr "device=/dev/x\n")) 3 zeroMem).trace
      = (x11hotplug_wakeup_handler xorgFlags
          { envOk (encode addRequest ++ cstr "device=/dev/x\n") with
            dgram := some (encode addRequest) } 3 zeroMem).trace :=
  (bytes_after_empty_line_ignored xorgFlags
    (envOk (encode addRequest ++ cstr "device=/dev/x\n")) 3 zeroMem addRequest
    (cstr "device=/dev/x\n") Int.one_pos (by decide) rfl rfl (by decide) (by decide)
    (by decide)).1

set_option maxRecDepth 100000 in
/-- C17 fails on the code: for the request `device=/dev/input/event3`,
`action=remove` the reply is `result=ok`, and the calls of the handler are
`remove_devices`, `sendto`, and the release of the two scratch strings; there
is no `NewInputDeviceRequest` that takes the option list and the attributes,
and neither `input_option_free_list` nor an `xfree` of `attrs.device`, which
is populated. -/
theorem remove_path_keeps_options :
    (x11hotplug_wakeup_handler xorgFlags (envOk (encode removeRequest)) 3 zeroMem).trace
      = [Call.remove_devices (cstr "x11hotplug") (cstr "x11hotplug:/dev/input/event3"),
         Call.sendto 3 (cstr "device=/dev/input/event3\naction=remove\nresult=ok"),
         Call.xfree Var.hotplug_action (cstr "remove"),
         Call.xfree Var.device (cstr "/dev/input/event3")]
    ∧ (x11hotplug_wakeup_handler xorgFlags (envOk (encode removeRequest)) 3
        zeroMem).fields.map (fun f => f.attrs.device)
      = some (some (cstr "/dev/input/event3")) := by
  decide

set_option maxRecDepth 100000 in
/-- C18 fails on the code: for the datagram that is a single newline the
first line is empty while `key` is still `buf`, so `*(--key) = 0` stores at
offset -1, and `sprintf` then starts at offset -1 as well; the reply sent from
`buf` is `result=no device`. -/
theorem empty_first_line_writes_before_buf :
    (x11hotplug_wakeup_handler xorgFlags (envOk (cstr "\n")) 3 zeroMem).writes
      = [1, 0, -1, -1, 0, 1, 2, 3, 4, 5, 6, 7, 8, 9, 10, 11, 12, 13, 14, 15, 16]
    ∧ (-1 : Int) ∈ (x11hotplug_wakeup_handler xorgFlags (envOk (cstr "\n")) 3
        zeroMem).writes
    ∧ replies (x11hotplug_wakeup_handler xorgFlags (envOk (cstr "\n")) 3 zeroMem).trace
      = [cstr "result=no device"] := by
  decide

theorem sprintf_writes_end (s : Parse) (k : Int) (bs : List Nat) :
    k + bs.length ∈ (s.sprintf k bs).writes := by
  induction bs generalizing s k with
  | nil => simp [Parse.sprintf, Parse.poke]
  | cons b bs ih =>
    have := ih (s.poke k b) (k + 1)
    simp only [Parse.sprintf, List.length_cons, Nat.cast_add, Nat.cast_one]
    have e : k + ((bs.length : Int) + 1) = k + 1 + bs.length := by ring
    rw [e]
    exact this

theorem result_line_length (failure : Option (List Nat)) :
    (result_line failure).length = 8 + (failure.getD (cstr "ok")).length := by
  have h8 : (cstr "\nresult=").length = 8 := by decide
  simp [result_line, h8]

theorem outcome_writes_end (E : Env) (sock : Int) (prior : Mem) (d : List Nat)
    (lines : List (List Nat)) (g : Fields) :
    ((encode lines).length : Int) - 1 - 1 + 8 + ((dispatch E g).2.1.getD (cstr "ok")).length
      ∈ (request_outcome E sock prior d lines g).writes := by
  have := sprintf_writes_end (done_state prior d lines g) ((encode lines).length - 1 - 1)
    (result_line (dispatch E g).2.1)
  rw [result_line_length] at this
  simp only [request_outcome]
  push_cast at this
  rw [← add_assoc] at this
  exact this

theorem longLine_length : longLine.length = 1021 := List.length_replicate _ _

theorem encode_longLine_length : (encode [longLine]).length = 1023 := by
  show (longLine ++ NL :: [NL]).length = 1023
  rw [List.length_append, longLine_length]
  rfl

theorem longLine_arrives : Arrives (envOk (encode [longLine])) 3 [longLine] := by
  refine arrives_envOk [longLine] ?_ ?_ ?_
  · rw [encode_longLine_length]; decide
  · intro l hl
    rw [List.mem_singleton] at hl
    subst hl
    refine ⟨?_, ?_, ?_⟩
    · intro h
      have := congrArg List.length h
      rw [longLine_length] at this
      exact absurd this (by decide)
    · intro h
      exact absurd (List.mem_replicate.1 h).2 (by decide)
    · intro h
      exact absurd (List.mem_replicate.1 h).2 (by decide)
  · intro h
    rw [List.mem_singleton] at h
    have := congrArg List.length h
    rw [longLine_length] at this
    exact absurd this (by decide)

/-- C19 fails on the code: for the request made of one line of 1021 letters
(a datagram of 1023 bytes) the result line is written from offset 1021 on, and
its terminating NUL is stored at an offset of at least 1029, past the end of
the 1024-byte `buf`. -/
theorem long_request_writes_past_buf :
    (encode [longLine]).length = 1023
    ∧ ∃ i ∈ (x11hotplug_wakeup_handler xorgFlags (envOk (encode [longLine])) 3
        zeroMem).writes, (BUFSIZE : Int) + 5 ≤ i := by
  have hlen : (encode [longLine]).length = 1023 := encode_longLine_length
  refine ⟨hlen, ?_⟩
  obtain ⟨g, _, hout⟩ := arrives_outcome xorgFlags (envOk (encode [longLine])) 3 zeroMem
    [longLine] longLine_arrives
  rw [hout]
  refine ⟨_, outcome_writes_end _ 3 zeroMem _ [longLine] g, ?_⟩
  rw [hlen]
  simp only [BUFSIZE]
  omega

/-! ## The restoration of the buffer -/

theorem strchr_some_val (m : Mem) (c : Nat) (n : Nat) (k i : Int)
    (h : strchr m c n k = .ok (some i)) : m i = c := by
  induction n generalizing k with
  | zero => simp [strchr] at h
  | succ n ih =>
    simp only [strchr] at h
    split_ifs at h with h1 h2
    · cases h; exact h1
    · cases h
    · exact ih (k + 1) h

theorem strchr_ge (m : Mem) (c : Nat) (n : Nat) (k i : Int)
    (h : strchr m c n k = .ok (some i)) : k ≤ i := by
  induction n generalizing k with
  | zero => simp [strchr] at h
  | succ n ih =>
    simp only [strchr] at h
    split_ifs at h with h1 h2
    · cases h; exact le_refl _
    · cases h
    · have := ih (k + 1) h
      omega

theorem parse_line_round (F : AttrFlags) (s s' : Parse) (k : Int)
    (h : parse_line F s k = .ok (s', true)) : s'.mem = s.mem := by
  unfold parse_line at h
  cases h1 : strchr s.mem NL (room k) k with
  | error e => rw [h1] at h; simp at h
  | ok lineend =>
    rw [h1] at h
    cases lineend with
    | none =>
      simp only at h
      split at h
      · simp at h
      · simp at h
      · split at h
        · simp at h
        · split at h
          · simp at h
          · simp at h
          · split at h
            · simp at h
            · simp at h
    | some e =>
      have he := strchr_some_val _ _ _ _ _ h1
      simp only at h
      split at h
      · simp at h
      · simp at h
      · split at h
        · simp at h
        · rename_i eq heq
          split at h
          · simp at h
          · simp at h
          · split at h
            · simp at h
            · simp only [Except.ok.injEq, Prod.mk.injEq, and_true] at h
              subst h
              cases eq with
              | none =>
                simp only [Option.map_none', Parse.poke]
                exact restore_one s.mem e he
              | some v =>
                have hv := strchr_some_val _ _ _ _ _ heq
                simp only [Parse.poke, store] at hv
                have hne : v ≠ e := by
                  intro hve
                  rw [if_pos hve] at hv
                  exact absurd hv (by decide)
                rw [if_neg hne] at hv
                simp only [Option.map_some', Parse.poke]
                exact restore_two s.mem e v he hv hne

theorem parse_line_stop (F : AttrFlags) (s s' : Parse) (k : Int)
    (h : parse_line F s k = .ok (s', false)) :
    s'.key = .null 1
      ∨ (s'.key = .buf (k - 1) ∧ ∀ j, j < k - 1 → s'.mem j = s.mem j) := by
  unfold parse_line at h
  cases h1 : strchr s.mem NL (room k) k with
  | error e => rw [h1] at h; simp at h
  | ok lineend =>
    rw [h1] at h
    cases lineend with
    | none =>
      simp only at h
      split at h
      · simp at h
      · simp only [Except.ok.injEq, Prod.mk.injEq, and_true] at h
        subst h
        right
        refine ⟨rfl, ?_⟩
        intro j hj
        have : j ≠ k - 1 := by omega
        simp [Parse.poke, store, this]
      · split at h
        · simp at h
        · split at h
          · simp at h
          · simp at h
          · split at h
            · simp at h
            · simp only [Except.ok.injEq, Prod.mk.injEq, and_true] at h
              subst h
              left
              rfl
    | some e =>
      have he := strchr_some_val _ _ _ _ _ h1
      simp only at h
      split at h
      · simp at h
      · rename_i hlen
        simp only [Except.ok.injEq, Prod.mk.injEq, and_true] at h
        subst h
        right
        refine ⟨rfl, ?_⟩
        intro j hj
        have hge := strchr_ge _ _ _ _ _ h1
        have h1 : j ≠ k - 1 := by omega
        have h2 : j ≠ e := by omega
        simp [Parse.poke, store, h1, h2]
      · split at h
        · simp at h
        · split at h
          · simp at h
          · simp at h
          · split at h
            · simp at h
            · simp at h

theorem loop_states_mem (F : AttrFlags) (n : Nat) (s : Parse) :
    ∀ s' ∈ loop_states F n s, s'.mem = s.mem := by
  induction n generalizing s with
  | zero => intro s' hs; simp [loop_states] at hs
  | succ n ih =>
    intro s' hs
    simp only [loop_states] at hs
    cases hk : s.key with
    | null o => rw [hk] at hs; simp at hs
    | buf k =>
      rw [hk] at hs
      simp only at hs
      cases hl : parse_line F s k with
      | error e => rw [hl] at hs; simp at hs
      | ok r =>
        obtain ⟨s1, b⟩ := r
        rw [hl] at hs
        cases b with
        | false => simp at hs
        | true =>
          have hround := parse_line_round F s s1 k hl
          rcases List.mem_cons.1 hs with h | h
          · rw [h]; exact hround
          · rw [ih s1 s' h]; exact hround

theorem parse_loop_below (F : AttrFlags) (n : Nat) (s s' : Parse) (p : Int)
    (h : parse_loop F n s = .ok s') (hp : s'.key = .buf p) :
    ∀ j, j < p → s'.mem j = s.mem j := by
  induction n generalizing s with
  | zero => simp [parse_loop] at h
  | succ n ih =>
    simp only [parse_loop] at h
    cases hk : s.key with
    | null o => rw [hk] at h; simp at h
    | buf k =>
      rw [hk] at h
      simp only at h
      cases hl : parse_line F s k with
      | error e => rw [hl] at h; simp at h
      | ok r =>
        obtain ⟨s1, b⟩ := r
        rw [hl] at h
        cases b with
        | true =>
          intro j hj
          rw [ih s1 h j hj]
          exact congrFun (parse_line_round F s s1 k hl) j
        | false =>
          simp only [Except.ok.injEq] at h
          subst h
          rcases parse_line_stop F s s1 k hl with hnull | ⟨hbuf, hmem⟩
          · rw [hnull] at hp; cases hp
          · rw [hbuf] at hp
            cases hp
            exact hmem

theorem entry_state_seg (prior : Mem) (d : List Nat) (h : d.length < BUFSIZE) :
    seg (entry_state prior d).mem 0 (d ++ [0]) := by
  rw [seg_append]
  refine ⟨?_, ?_⟩
  · simp only [entry_state, Parse.poke]
    exact seg_store _ _ _ _ _ (seg_recvfrom prior d h) (Or.inr (by simp))
  · simp [entry_state, Parse.poke, store, seg]

theorem seg_get (m : Mem) (k : Int) (bs : List Nat) (h : seg m k bs) (j : Nat)
    (hj : j < bs.length) : m (k + j) = bs.getD j 0 := by
  induction bs generalizing k j with
  | nil => simp at hj
  | cons x xs ih =>
    cases j with
    | zero => simpa using h.1
    | succ j =>
      have := ih (k + 1) h.2 j (by simpa using hj)
      simp only [Nat.cast_add, Nat.cast_one, List.getD_cons_succ]
      rw [← this]; congr 1; ring

theorem handler_runs_loop (F : AttrFlags) (E : Env) (sock : Int) (prior : Mem)
    (d : List Nat) (hres : 0 < E.result) (hsock : 0 ≤ sock) (hready : E.ready = true)
    (hd : E.dgram = some d) (hne : d ≠ []) (hlen : d.length < BUFSIZE)
    (hok : (x11hotplug_wakeup_handler F E sock prior).fault = none) :
    ∃ s p, parse_loop F BUFSIZE (entry_state prior d) = .ok s ∧ s.key = .buf p
      ∧ ∀ j, j < p → (x11hotplug_wakeup_handler F E sock prior).mem j = s.mem j := by
  have hgate : ¬ (E.result ≤ 0 ∨ sock < 0 ∨ E.ready = false) := by
    simp [hready]; omega
  have hret := recvfrom_fst prior d hlen
  have hpos : 0 < d.length := List.length_pos.2 hne
  have hnot : ¬ ((d.length : Int) ≤ 0) := by omega
  have hsplit : recvfrom prior (some d)
      = ((recvfrom prior (some d)).1, (recvfrom prior (some d)).2) := rfl
  unfold x11hotplug_wakeup_handler at hok ⊢
  rw [if_neg hgate, hd, hsplit, hret] at hok ⊢
  simp only [hnot, if_false] at hok ⊢
  change (match parse_loop F BUFSIZE (entry_state prior d) with
    | .error e => _
    | .ok s => _ : Outcome).fault = none at hok
  change ∃ s p, _ ∧ _ ∧ ∀ j, j < p → (match parse_loop F BUFSIZE (entry_state prior d) with
    | .error e => _
    | .ok s => _ : Outcome).mem j = s.mem j
  cases hloop : parse_loop F BUFSIZE (entry_state prior d) with
  | error e => rw [hloop] at hok; simp at hok
  | ok s =>
    rw [hloop] at hok
    simp only at hok ⊢
    cases hkey : s.key with
    | null o => rw [hkey] at hok; simp at hok
    | buf k =>
      refine ⟨s, k, rfl, hkey, ?_⟩
      intro j hj
      simp only [hkey]
      exact sprintf_below s k _ j hj

/-- C15: for every datagram of 1 to 1023 bytes: at loop entry the buffer
holds the datagram followed by the NUL the handler stores at `buf[ret]`; after
every pass of the parse loop that goes round again (a line that is not empty
and ends in a newline has been processed) the whole memory is what it was at
loop entry, both substitutions undone; when the loop ends with `key` in `buf`,
every byte below `key`, the position where the result line is written, is the
byte of loop entry; and when the handler ends without fault, every byte of the
final buffer below that position is the byte that was received. -/
theorem buffer_restored (F : AttrFlags) (prior : Mem) (d : List Nat)
    (hne : d ≠ []) (hlen : d.length < BUFSIZE) :
    seg (entry_state prior d).mem 0 (d ++ [0])
    ∧ (∀ s ∈ loop_states F BUFSIZE (entry_state prior d),
        s.mem = (entry_state prior d).mem)
    ∧ (∀ s p, parse_loop F BUFSIZE (entry_state prior d) = .ok s → s.key = .buf p →
        ∀ j, j < p → s.mem j = (entry_state prior d).mem j)
    ∧ (∀ E sock, 0 < E.result → 0 ≤ sock → E.ready = true → E.dgram = some d →
        (x11hotplug_wakeup_handler F E sock prior).fault = none →
        ∃ s p, parse_loop F BUFSIZE (entry_state prior d) = .ok s ∧ s.key = .buf p
          ∧ ∀ j : Nat, (j : Int) < p → j < d.length →
              (x11hotplug_wakeup_handler F E sock prior).mem j = d.getD j 0) := by
  have hseg := entry_state_seg prior d hlen
  refine ⟨hseg, loop_states_mem F BUFSIZE _, ?_, ?_⟩
  · intro s p hs hp
    exact parse_loop_below F BUFSIZE _ s p hs hp
  · intro E sock hres hsock hready hd hok
    obtain ⟨s, p, hs, hp, hmem⟩ :=
      handler_runs_loop F E sock prior d hres hsock hready hd hne hlen hok
    refine ⟨s, p, hs, hp, ?_⟩
    intro j hj hjd
    rw [hmem j hj, parse_loop_below F BUFSIZE _ s p hs hp j hj]
    have := seg_get _ 0 _ ((seg_append _ _ _ _).1 hseg).1 j hjd
    simpa using this

set_option maxRecDepth 100000 in
/-- C15, on the datagram `a=b`, newline, `c`, newline, newline: the loop goes
round twice and the handler ends without fault. -/
theorem buffer_restored_witness :
    cstr "a=b\nc\n\n" ≠ []
    ∧ (cstr "a=b\nc\n\n").length < BUFSIZE
    ∧ (loop_states xorgFlags BUFSIZE (entry_state zeroMem (cstr "a=b\nc\n\n"))).length = 2
    ∧ (x11hotplug_wakeup_handler xorgFlags (envOk (cstr "a=b\nc\n\n")) 3 zeroMem).fault
        = none
    ∧ (∀ s ∈ loop_states xorgFlags BUFSIZE (entry_state zeroMem (cstr "a=b\nc\n\n")),
        s.mem = (entry_state zeroMem (cstr "a=b\nc\n\n")).mem) :=
  ⟨by decide, by decide, by decide, by decide,
    (buffer_restored xorgFlags zeroMem (cstr "a=b\nc\n\n") (by decide) (by decide)).2.1⟩

end X11Hotplug
